import Mathlib

/-!
Shallow embedding of the education-data pipeline
(`extract.py`, `transform.py`, `load.py`): the dimension decoder,
the per-kind record cleaners, the metadata synthesizer and the
loaders, together with theorems settling the spec's claims.

Cell values are modelled exactly: a pandas cell is a string, a finite
number (modelled as an exact rational), or NaN/None (`na`).
-/

/-- Structural decidability of equality on `ℚ` (numerator/denominator
pairs are canonical), used so that concrete frames evaluate by `decide`. -/
instance : DecidableEq ℚ := fun a b =>
  decidable_of_iff (a.num = b.num ∧ a.den = b.den)
    ⟨fun h => Rat.ext h.1 h.2, fun h => by rw [h]; exact ⟨rfl, rfl⟩⟩

/-- A pandas cell: string, number (exact rational), or missing (NaN/None). -/
inductive Val where
  | vstr (s : String)
  | vnum (q : ℚ)
  | na
deriving DecidableEq, Repr

/-- Digits of a Python integer literal, allowing single underscores
between digits (as `int` does since Python 3.6); rejects leading,
trailing or doubled underscores. -/
def pyDigitsAux (acc : Nat) : List Char → Option Nat
  | [] => some acc
  | '_' :: c :: cs =>
      if c.isDigit then pyDigitsAux (acc * 10 + (c.toNat - 48)) cs else none
  | c :: cs =>
      if c.isDigit then pyDigitsAux (acc * 10 + (c.toNat - 48)) cs else none

def pyDigits : List Char → Option Nat
  | [] => none
  | c :: cs => if c.isDigit then pyDigitsAux (c.toNat - 48) cs else none

/-- Strip ASCII whitespace from both ends of a char list. -/
def trimChars (cs : List Char) : List Char :=
  ((cs.dropWhile Char.isWhitespace).reverse.dropWhile Char.isWhitespace).reverse

/-- Model of Python `int(s)` on a string: optional surrounding
whitespace, optional sign, then digits (with underscore grouping).
Returns `none` where `int` raises `ValueError`.  (Unicode digits,
accepted by CPython, are out of scope of the claims and not modelled.) -/
def pyInt (s : String) : Option Int :=
  match trimChars s.toList with
  | '+' :: rest => (pyDigits rest).map Int.ofNat
  | '-' :: rest => (pyDigits rest).map (fun n => -(n : Int))
  | rest => (pyDigits rest).map Int.ofNat

/-- Python `str.split(sep)` with a one-character separator. -/
def splitOnChar (sep : Char) : List Char → List (List Char)
  | [] => [[]]
  | c :: rest =>
      let r := splitOnChar sep rest
      if c = sep then [] :: r
      else
        match r with
        | [] => [[c]]
        | g :: gs => (c :: g) :: gs

/-- Digits of a decimal number: returns (value, number of digits). -/
def decDigits : List Char → Option (Nat × Nat)
  | [] => some (0, 0)
  | c :: cs =>
      if c.isDigit then
        match decDigits cs with
        | some (v, n) => some ((c.toNat - 48) * 10 ^ n + v, n + 1)
        | none => none
      else none

/-- Parse an unsigned decimal mantissa `digits[.digits]` with at
least one digit; the result `(v, sc)` denotes the exact rational
`v / 10 ^ sc`. -/
def parseMantissa (cs : List Char) : Option (Nat × Nat) :=
  match splitOnChar '.' cs with
  | [intPart] =>
      match decDigits intPart with
      | some (v, n) => if n = 0 then none else some (v, 0)
      | none => none
  | [intPart, fracPart] =>
      match decDigits intPart, decDigits fracPart with
      | some (vi, ni), some (vf, nf) =>
          if ni = 0 ∧ nf = 0 then none
          else some (vi * 10 ^ nf + vf, nf)
      | _, _ => none
  | _ => none

/-- Parse an optional exponent part (digits with optional sign). -/
def parseExp (cs : List Char) : Option Int :=
  match cs with
  | '+' :: rest => (decDigits rest).bind fun (v, n) =>
      if n = 0 then none else some (v : Int)
  | '-' :: rest => (decDigits rest).bind fun (v, n) =>
      if n = 0 then none else some (-(v : Int))
  | rest => (decDigits rest).bind fun (v, n) =>
      if n = 0 then none else some (v : Int)

/-- Model of the numeric-string parser behind `pd.to_numeric`:
optional whitespace and sign, decimal mantissa, optional `e`/`E`
exponent.  Exact rational arithmetic (the claims' values are
exactly representable). -/
def parseNumQ (s : String) : Option ℚ :=
  let cs := trimChars s.toList
  let (sgn, body) : Int × List Char :=
    match cs with
    | '+' :: rest => (1, rest)
    | '-' :: rest => (-1, rest)
    | rest => (1, rest)
  let parts :=
    let pe := splitOnChar 'e' body
    if pe.length = 1 then splitOnChar 'E' body else pe
  match parts with
  | [m] => (parseMantissa m).map fun vs =>
      mkRat (sgn * (vs.1 : Int)) (10 ^ vs.2)
  | [m, ex] =>
      (parseMantissa m).bind fun vs =>
        (parseExp ex).map fun e =>
          if 0 ≤ e then mkRat (sgn * ((vs.1 * 10 ^ e.toNat : Nat) : Int)) (10 ^ vs.2)
          else mkRat (sgn * (vs.1 : Int)) (10 ^ vs.2 * 10 ^ (-e).toNat)
  | _ => none

/-- `pd.to_numeric(col, errors='coerce')` on one cell: numbers pass
through, parseable strings become numbers, everything else becomes NaN. -/
def toNumeric : Val → Val
  | .vnum q => .vnum q
  | .vstr s => match parseNumQ s with
      | some q => .vnum q
      | none => .na
  | .na => .na

/-- `Series.between(lo, hi)` on one cell: inclusive bounds, NaN and
non-numeric cells give `False`. -/
def valBetween (v : Val) (lo hi : ℚ) : Bool :=
  match v with
  | .vnum q => decide (lo ≤ q) && decide (q ≤ hi)
  | _ => false

/-- `Series.between` with possibly-NaN bounds (pandas comparisons with
NaN are `False`). -/
def valBetweenO (v : Val) (lo hi : Option ℚ) : Bool :=
  match v, lo, hi with
  | .vnum q, some l, some h => decide (l ≤ q) && decide (q ≤ h)
  | _, _, _ => false

/-- Substring test on char lists. -/
def listHasInfix (pat : List Char) : List Char → Bool
  | [] => decide (pat = [])
  | c :: cs => pat.isPrefixOf (c :: cs) || listHasInfix pat cs

/-- `.str.contains(pat, na=False)` on one cell: substring match for
strings, `False` for NaN and non-string cells. -/
def strContainsVal (v : Val) (pat : String) : Bool :=
  match v with
  | .vstr s => listHasInfix pat.toList s.toList
  | _ => false

/-- Collapse runs of underscores to a single underscore
(`re.sub(r'_+', '_', ...)`). `prev` is the previously emitted char. -/
def collapseAux (prev : Option Char) : List Char → List Char
  | [] => []
  | c :: cs =>
      if c = '_' ∧ prev = some '_' then collapseAux prev cs
      else c :: collapseAux (some c) cs

/-- `col_name.lower().strip()` followed by `re.sub(r'[^\w]', '_', ...)`
and `re.sub(r'_+', '_', ...)`.  `\w` is modelled as ASCII
alphanumerics plus underscore. -/
def normalizeColName (s : String) : String :=
  let base := trimChars (s.toList.map Char.toLower)
  let repl := base.map (fun c => if c.isAlphanum ∨ c = '_' then c else '_')
  String.mk (collapseAux none repl)

/-- `EducationDataTransformer._standardize_col_name`: normalization
followed by the fixed synonym table. -/
def standardizeColName (s : String) : String :=
  let n := normalizeColName s
  if n = "time_period" then "year"
  else if n = "ref_area" then "country"
  else if n = "obs_value" then "value"
  else if n = "location" then "country_code"
  else n

/-- No input column name ever standardizes to `"location"`: the
synonym table maps the normalized form `"location"` to
`"country_code"`, and no synonym produces `"location"`. -/
theorem standardizeColName_ne_location (s : String) :
    standardizeColName s ≠ "location" := by
  unfold standardizeColName
  by_cases h1 : normalizeColName s = "time_period" <;>
    by_cases h2 : normalizeColName s = "ref_area" <;>
      by_cases h3 : normalizeColName s = "obs_value" <;>
        by_cases h4 : normalizeColName s = "location" <;>
          simp [h1, h2, h3, h4]

/-- A pandas DataFrame: a list of column labels and rows of cells,
positionally aligned with the labels. -/
structure DataFrame where
  cols : List String
  rows : List (List Val)
deriving DecidableEq, Repr

/-- Every row has exactly one cell per column label. -/
def DataFrame.Aligned (df : DataFrame) : Prop :=
  ∀ r ∈ df.rows, r.length = df.cols.length

instance (df : DataFrame) : Decidable df.Aligned := by
  unfold DataFrame.Aligned; infer_instance

/-- Cell of a row at a named column (`na` when the column is absent,
matching pandas NaN semantics for our uses). -/
def getCell (cols : List String) (r : List Val) (c : String) : Val :=
  ((r.get? (cols.indexOf c)).getD .na)

/-- Column labels after `df[name] = ...`: assignment to an existing
label keeps the labels, a new label is appended. -/
def colsAfter (cols : List String) (name : String) : List String :=
  if name ∈ cols then cols else cols ++ [name]

/-- One row after `df[name] = ...`: overwrite in place for an
existing label, append for a new one. -/
def rowSet (cols : List String) (r : List Val) (name : String) (v : Val) :
    List Val :=
  if name ∈ cols then r.set (cols.indexOf name) v else r ++ [v]

/-- `df[dst] = f(df[src])`: column assignment computed cell-wise from
another column (covers `pd.to_numeric(df[c])`, `df[c].str[:3]`,
`df[c].apply(g)`, `df[c] / 100`, plain column copies). -/
def withCol (df : DataFrame) (dst src : String) (f : Val → Val) : DataFrame :=
  { cols := colsAfter df.cols dst,
    rows := df.rows.map (fun r => rowSet df.cols r dst (f (getCell df.cols r src))) }

/-- `df[name] = scalar`. -/
def withConst (df : DataFrame) (name : String) (v : Val) : DataFrame :=
  { cols := colsAfter df.cols name,
    rows := df.rows.map (fun r => rowSet df.cols r name v) }

/-- `df = df[pred(df[c])]`: boolean-mask row filter on a column. -/
def filterOn (df : DataFrame) (c : String) (p : Val → Bool) : DataFrame :=
  { cols := df.cols,
    rows := df.rows.filter (fun r => p (getCell df.cols r c)) }

/-- `df.columns = [standardize(c) for c in df.columns]`. -/
def stdCols (df : DataFrame) : DataFrame :=
  { cols := df.cols.map standardizeColName, rows := df.rows }

theorem mem_colsAfter {cols : List String} {name c : String} :
    c ∈ colsAfter cols name ↔ c ∈ cols ∨ c = name := by
  unfold colsAfter
  split
  · next h => simp; intro hc; exact hc ▸ h
  · simp

theorem length_rowSet {cols : List String} {r : List Val} {name : String}
    {v : Val} (h : r.length = cols.length) :
    (rowSet cols r name v).length = (colsAfter cols name).length := by
  unfold rowSet colsAfter
  split <;> simp [h]

theorem getCell_absent {cols : List String} {r : List Val} {c : String}
    (h : r.length = cols.length) (hc : c ∉ cols) :
    getCell cols r c = .na := by
  unfold getCell
  rw [List.indexOf_eq_length.mpr hc, ← h]
  simp [List.get?_eq_none.mpr (le_refl _)]

theorem getCell_rowSet_same {cols : List String} {r : List Val}
    {name : String} {v : Val} (h : r.length = cols.length) :
    getCell (colsAfter cols name) (rowSet cols r name v) name = v := by
  unfold getCell colsAfter rowSet
  by_cases hm : name ∈ cols
  · simp only [if_pos hm]
    have hlt : cols.indexOf name < r.length := by
      rw [h]; exact List.indexOf_lt_length.mpr hm
    rw [List.get?_set_eq]
    rw [List.get?_eq_get hlt]
    simp
  · simp only [if_neg hm]
    rw [List.indexOf_append_of_not_mem hm]
    have : List.indexOf name [name] = 0 := by simp [List.indexOf_cons_self]
    rw [this, Nat.add_zero]
    rw [List.get?_append_right (by omega)]
    simp [h]

theorem getCell_rowSet_other {cols : List String} {r : List Val}
    {name c : String} {v : Val} (h : r.length = cols.length) (hne : c ≠ name) :
    getCell (colsAfter cols name) (rowSet cols r name v) c = getCell cols r c := by
  unfold getCell colsAfter rowSet
  by_cases hm : name ∈ cols
  · simp only [if_pos hm]
    by_cases hc : c ∈ cols
    · have hlt : cols.indexOf name < cols.length := List.indexOf_lt_length.mpr hm
      have hltc : cols.indexOf c < cols.length := List.indexOf_lt_length.mpr hc
      have hne' : cols.indexOf name ≠ cols.indexOf c := by
        intro heq
        have h1 := List.indexOf_get hlt
        have h2 := List.indexOf_get hltc
        apply hne
        calc c = cols.get ⟨cols.indexOf c, hltc⟩ := h2.symm
          _ = cols.get ⟨cols.indexOf name, hlt⟩ := by
              congr 1; exact Fin.ext heq.symm
          _ = name := h1
      rw [List.get?_set_ne _ _ hne']
    · have hcl : cols.indexOf c = cols.length := List.indexOf_eq_length.mpr hc
      rw [hcl]
      rw [List.get?_set_ne]
      have hlt : cols.indexOf name < cols.length := List.indexOf_lt_length.mpr hm
      omega
  · simp only [if_neg hm]
    by_cases hc : c ∈ cols
    · rw [List.indexOf_append_of_mem hc]
      rw [List.get?_append (by rw [h]; exact List.indexOf_lt_length.mpr hc)]
    · have hcl : cols.indexOf c = cols.length := List.indexOf_eq_length.mpr hc
      have hc' : c ∉ cols ++ [name] := by
        simp [hc]; exact hne
      rw [List.indexOf_eq_length.mpr hc', hcl]
      rw [List.get?_eq_none.mpr (by simp [h]), List.get?_eq_none.mpr (by omega)]

/-- Alignment is preserved by the DataFrame operations. -/
theorem aligned_stdCols {df : DataFrame} (h : df.Aligned) :
    (stdCols df).Aligned := by
  intro r hr
  simpa [stdCols] using h r hr

theorem aligned_withCol {df : DataFrame} {dst src : String} {f : Val → Val}
    (h : df.Aligned) : (withCol df dst src f).Aligned := by
  intro r hr
  simp only [withCol, List.mem_map] at hr
  obtain ⟨r₀, hr₀, rfl⟩ := hr
  exact length_rowSet (h r₀ hr₀)

theorem aligned_withConst {df : DataFrame} {name : String} {v : Val}
    (h : df.Aligned) : (withConst df name v).Aligned := by
  intro r hr
  simp only [withConst, List.mem_map] at hr
  obtain ⟨r₀, hr₀, rfl⟩ := hr
  exact length_rowSet (h r₀ hr₀)

theorem aligned_filterOn {df : DataFrame} {c : String} {p : Val → Bool}
    (h : df.Aligned) : (filterOn df c p).Aligned := by
  intro r hr
  simp only [filterOn] at hr
  exact h r (List.mem_of_mem_filter hr)

/-- `df['location'].str[:3]`: first three characters of a string cell,
NaN for non-string cells. -/
def strTake3 : Val → Val
  | .vstr s => .vstr (s.take 3)
  | _ => .na

/-- The fixed code→name table of `_map_country_code`. -/
def countryMap (c : String) : Option String :=
  if c = "USA" then some "United States"
  else if c = "GBR" then some "United Kingdom"
  else if c = "DEU" then some "Germany"
  else if c = "FRA" then some "France"
  else if c = "JPN" then some "Japan"
  else if c = "CAN" then some "Canada"
  else if c = "AUS" then some "Australia"
  else if c = "OECD" then some "OECD Average"
  else if c = "EU" then some "European Union"
  else none

/-- `_map_country_code` applied to one cell: strings found in the
table map to the display name, everything else passes through
unchanged (identity fallback). -/
def mapCountryCode : Val → Val
  | .vstr s => match countryMap s with
      | some n => .vstr n
      | none => .vstr s
  | v => v

/-- The `if 'indicator' in df_clean.columns` filter shared by the
three cleaners, with the kind's marker substring. -/
def indicatorStep (marker : String) (df : DataFrame) : DataFrame :=
  if "indicator" ∈ df.cols then
    filterOn df "indicator" (fun v => strContainsVal v marker)
  else df

/-- The `if 'location' in df_clean.columns` branch shared by the
three cleaners: truncated code plus resolved name. -/
def locationStep (df : DataFrame) : DataFrame :=
  if "location" ∈ df.cols then
    withCol (withCol df "country_code" "location" strTake3)
      "country_name" "location" mapCountryCode
  else df

/-- The `if 'time' in df_clean.columns` branch shared by the three
cleaners: numeric coercion into `year` and the 2000–2023 window filter. -/
def yearStep (df : DataFrame) : DataFrame :=
  if "time" ∈ df.cols then
    filterOn (withCol df "year" "time" toNumeric) "year"
      (fun v => valBetween v 2000 2023)
  else df

/-- Standardize-columns, indicator, location and year steps, common
prefix of all three cleaners. -/
def cleanPre (marker : String) (df : DataFrame) : DataFrame :=
  yearStep (locationStep (indicatorStep marker (stdCols df)))

/-- Enrollment value branch: coerce `value` into `enrollment_rate`
and keep rows in `[0, 200]`. -/
def enrollValueStep (df : DataFrame) : DataFrame :=
  if "value" ∈ df.cols then
    filterOn (withCol df "enrollment_rate" "value" toNumeric)
      "enrollment_rate" (fun v => valBetween v 0 200)
  else df

/-- `EducationDataTransformer.clean_enrollment_data`.  `today` is the
ambient `datetime.now().date()` cell. -/
def clean_enrollment_data (today : Val) (df : DataFrame) : DataFrame :=
  withConst
    (withConst (enrollValueStep (cleanPre "ENRL" df))
      "data_source" (.vstr "OECD"))
    "extraction_date" today

/-- `df_clean['graduation_rate'] / 100` on one cell.  (On a string
cell pandas would raise a `TypeError`, producing no output at all;
the model returns NaN there, which only widens the set of rows the
theorems must cover.) -/
def div100 : Val → Val
  | .vnum q => .vnum (mkRat q.num (q.den * 100))
  | _ => .na

/-- Graduation value branch: coerce `value` into `graduation_rate`
and keep rows in `[0, 120]`. -/
def gradValueStep (df : DataFrame) : DataFrame :=
  if "value" ∈ df.cols then
    filterOn (withCol df "graduation_rate" "value" toNumeric)
      "graduation_rate" (fun v => valBetween v 0 120)
  else df

/-- `if 'graduation_rate' in df_clean.columns:` derived
`completion_rate` column. -/
def gradCompletionStep (df : DataFrame) : DataFrame :=
  if "graduation_rate" ∈ df.cols then
    withCol df "completion_rate" "graduation_rate" div100
  else df

/-- `EducationDataTransformer.clean_graduation_data`. -/
def clean_graduation_data (today : Val) (df : DataFrame) : DataFrame :=
  withConst
    (withConst (gradCompletionStep (gradValueStep (cleanPre "GRAD" df)))
      "data_source" (.vstr "OECD"))
    "extraction_date" today

/-- Numeric part of a cell (pandas quantile skips NaN). -/
def numPart : Val → Option ℚ
  | .vnum q => some q
  | _ => none

/-- Lexicographic comparison of code-point sequences, Python's
string ordering. -/
def lexLe : List Char → List Char → Bool
  | [], _ => true
  | _ :: _, [] => false
  | c :: cs, d :: ds =>
      if c < d then true else if d < c then false else lexLe cs ds

/-- Insert into a sorted list (used to model sorting: for a total
order this produces the same list as Python's `sorted`/numpy's sort). -/
def insSorted {α : Type} (le : α → α → Bool) (x : α) : List α → List α
  | [] => [x]
  | y :: ys => if le x y then x :: y :: ys else y :: insSorted le x ys

/-- Insertion sort. -/
def insSort {α : Type} (le : α → α → Bool) (xs : List α) : List α :=
  xs.foldr (insSorted le) []

/-- Exact rational sum, difference, product and floor, written
through `mkRat` so that concrete values evaluate. -/
def qAdd (a b : ℚ) : ℚ := mkRat (a.num * b.den + b.num * a.den) (a.den * b.den)

def qSub (a b : ℚ) : ℚ := mkRat (a.num * b.den - b.num * a.den) (a.den * b.den)

def qMul (a b : ℚ) : ℚ := mkRat (a.num * b.num) (a.den * b.den)

def qFloor (a : ℚ) : Int := Int.fdiv a.num a.den

/-- `Series.quantile(p)` with the default linear interpolation over
the non-NaN values; `none` models the NaN result on an empty series. -/
def pandasQuantile (xs : List ℚ) (p : ℚ) : Option ℚ :=
  let ys := insSort (fun a b => decide (a ≤ b)) xs
  if ys.length = 0 then none
  else
    let h : ℚ := qMul p (mkRat ((ys.length : Int) - 1) 1)
    let i : Nat := (qFloor h).toNat
    let g : ℚ := qSub h (mkRat (i : Int) 1)
    let xi := ys.getD i 0
    let xj := ys.getD (min (i + 1) (ys.length - 1)) 0
    some (qAdd xi (qMul (qSub xj xi) g))

/-- The coerced spending values of a frame's `spending_usd` column,
NaN entries skipped. -/
def spendNums (df : DataFrame) : List ℚ :=
  (df.rows.map (fun r => getCell df.cols r "spending_usd")).filterMap numPart

/-- Spending value branch: coerce `value` into `spending_usd`,
compute the batch's empirical 1st/99th percentiles and keep rows in
that closed band. -/
def spendValueStep (df : DataFrame) : DataFrame :=
  if "value" ∈ df.cols then
    let a := withCol df "spending_usd" "value" toNumeric
    let qlow := pandasQuantile (spendNums a) (mkRat 1 100)
    let qhigh := pandasQuantile (spendNums a) (mkRat 99 100)
    filterOn a "spending_usd" (fun v => valBetweenO v qlow qhigh)
  else df

/-- `if 'spending_usd' in df_clean.columns:` placeholder
`spending_per_capita` column (a plain copy). -/
def spendPerCapitaStep (df : DataFrame) : DataFrame :=
  if "spending_usd" ∈ df.cols then
    withCol df "spending_per_capita" "spending_usd" id
  else df

/-- `EducationDataTransformer.clean_spending_data`. -/
def clean_spending_data (today : Val) (df : DataFrame) : DataFrame :=
  withConst
    (withConst
      (withConst (spendPerCapitaStep (spendValueStep (cleanPre "FIN" df)))
        "data_source" (.vstr "OECD"))
      "extraction_date" today)
    "currency" (.vstr "USD")

/-! ## Dimension decoder (`extract.py`, `_parse_oecd_json`) -/

/-- One entry of a dimension's `values` list (`{'name': ...}`, the
name possibly missing). -/
structure DimValue where
  name : Option String
deriving DecidableEq, Repr

/-- One entry of `structure.dimensions.observation`. -/
structure Dim where
  name : Option String
  values : List DimValue
deriving DecidableEq, Repr

/-- Python dict assignment `record[k] = v` on an association list:
overwrite in place when the key exists, append otherwise. -/
def dictSet (r : List (String × Val)) (k : String) (v : Val) :
    List (String × Val) :=
  if r.any (fun p => decide (p.1 = k)) then
    r.map (fun p => if p.1 = k then (k, v) else p)
  else r ++ [(k, v)]

/-- Python list indexing `values[idx]` with an `int` index: negative
indices wrap from the end, out-of-range raises `IndexError`. -/
def pyGetDimValue (values : List DimValue) (idx : Int) :
    Except String DimValue :=
  let j : Int := if 0 ≤ idx then idx else (values.length : Int) + idx
  if 0 ≤ j then
    match values.get? j.toNat with
    | some dv => .ok dv
    | none => .error "IndexError: list index out of range"
  else .error "IndexError: list index out of range"

/-- The `for i, dim in enumerate(dimensions)` loop body of
`_parse_oecd_json`: guarded positional mapping of indices to
dimension value names; out-of-range indices for their dimension are
skipped (the record is simply missing that key). -/
def buildRecordAux (indices : List Int) :
    Nat → List Dim → List (String × Val) →
    Except String (List (String × Val))
  | _, [], record => .ok record
  | i, dim :: rest, record =>
      if h : i < indices.length then
        let idx := indices.get ⟨i, h⟩
        if idx < (dim.values.length : Int) then
          match pyGetDimValue dim.values idx with
          | .error e => .error e
          | .ok dv =>
              let dimName := dim.name.getD ("dim_" ++ toString i)
              buildRecordAux indices (i + 1) rest
                (dictSet record dimName (.vstr (dv.name.getD "")))
        else buildRecordAux indices (i + 1) rest record
      else buildRecordAux indices (i + 1) rest record

/-- Parse every index token; `none` as soon as one token fails. -/
def parseTokens : List String → Option (List Int)
  | [] => some []
  | t :: ts =>
      match pyInt t with
      | none => none
      | some i => (parseTokens ts).map (i :: ·)

/-- `[int(idx) for idx in obs_key.split(':')]`; `none` models the
`ValueError` raised on a non-integer token. -/
def parseObsKey (key : String) : Option (List Int) :=
  parseTokens ((splitOnChar ':' key.toList).map String.mk)

/-- Decode one observation entry into a flat record. -/
def decodeObservation (dims : List Dim) (key : String) (vs : List Val) :
    Except String (List (String × Val)) :=
  match parseObsKey key with
  | none => .error "ValueError: invalid literal for int() with base 10"
  | some indices =>
      match buildRecordAux indices 0 dims [] with
      | .error e => .error e
      | .ok record =>
          .ok (if vs.isEmpty then record else dictSet record "value" (vs.headD .na))

/-- `OECDDataExtractor._parse_oecd_json`: decode every observation in
payload order; any exception aborts the whole decode (the `for` loop
has no handler, so no partial record list is ever returned). -/
def parseOecdJson (observations : List (String × List Val)) (dims : List Dim) :
    Except String (List (List (String × Val))) :=
  match observations with
  | [] => .ok []
  | kv :: rest =>
      match decodeObservation dims kv.1 kv.2 with
      | .error e => .error e
      | .ok r =>
          match parseOecdJson rest dims with
          | .error e => .error e
          | .ok rs => .ok (r :: rs)

/-- `pd.DataFrame(records)`: columns in order of first appearance of
the keys, missing keys become NaN cells. -/
def dfOfRecords (rs : List (List (String × Val))) : DataFrame :=
  let cols := rs.foldl
    (fun acc r => r.foldl
      (fun a p => if a.contains p.1 then a else a ++ [p.1]) acc) []
  { cols := cols,
    rows := rs.map (fun r =>
      cols.map (fun c => (((r.find? (fun p => decide (p.1 = c))).map Prod.snd).getD .na))) }

/-! ## Metadata synthesizer (`create_country_metadata`) -/

/-- `_get_region`: fixed table, then the European-codes fallback,
then `"Other"`. -/
def getRegion (c : String) : String :=
  let fromTable : Option String :=
    if c = "USA" then some "North America"
    else if c = "CAN" then some "North America"
    else if c = "GBR" then some "Europe"
    else if c = "DEU" then some "Europe"
    else if c = "FRA" then some "Europe"
    else if c = "JPN" then some "Asia"
    else if c = "AUS" then some "Oceania"
    else none
  match fromTable with
  | some r => r
  | none =>
      if c ∈ ["DEU", "FRA", "GBR", "ITA", "ESP"] then "Europe" else "Other"

/-- `_get_income_group`. -/
def getIncomeGroup (c : String) : String :=
  if c ∈ ["USA", "GBR", "DEU", "FRA", "JPN", "CAN", "AUS", "OECD"]
  then "High Income" else "Not Specified"

/-- One synthesized `CountryMetadata` record. -/
structure CountryRow where
  country_code : String
  country_name : String
  region : String
  income_group : String
  data_available : Bool
  last_updated : Val
deriving DecidableEq, Repr

/-- The values a frame contributes to `all_countries`: its
`country_code` column and its `country_name` column, when present.
(`Series.unique()` only de-duplicates; the enclosing `set` union does
so again, so per-column dedup is absorbed by the final `dedup`.) -/
def collectCountryVals (df : DataFrame) : List Val :=
  (if "country_code" ∈ df.cols then
    df.rows.map (fun r => getCell df.cols r "country_code") else []) ++
  (if "country_name" ∈ df.cols then
    df.rows.map (fun r => getCell df.cols r "country_name") else [])

/-- String contents of the collected cells.  Python's `sorted` raises
`TypeError` as soon as the set mixes strings with non-strings (NaN
included); the model treats any non-string element as that error. -/
def valsAsStrings : List Val → Option (List String)
  | [] => some []
  | .vstr s :: vs => (valsAsStrings vs).map (s :: ·)
  | _ :: _ => none

/-- The one row `create_country_metadata` builds for a set element:
elements of length at most 3 are treated as the code, longer ones
leave the code empty. -/
def buildCountryRow (today : Val) (c : String) : CountryRow :=
  { country_code := if c.length ≤ 3 then String.mk (c.toList.take 3) else "",
    country_name := c,
    region := getRegion c,
    income_group := getIncomeGroup c,
    data_available := true,
    last_updated := today }

/-- `EducationDataTransformer.create_country_metadata`. -/
def create_country_metadata (today : Val) (dfs : List DataFrame) :
    Except String (List CountryRow) :=
  let allVals := ((dfs.map collectCountryVals).join).dedup
  match valsAsStrings allVals with
  | none => .error "TypeError: unorderable types in sorted"
  | some strs =>
      let sortedCountries := insSort (fun a b => lexLe a.toList b.toList) strs
      .ok ((sortedCountries.filter (fun c => decide (trimChars c.toList ≠ []))).map
        (buildCountryRow today))

/-! ## Loader (`load.py`) -/

/-- A persisted row of the `countries` table (surrogate `id` omitted:
it carries no information the claims mention). -/
structure DbCountryRow where
  country_code : String
  country_name : String
  region : String
  income_group : String
  data_available : Bool
  last_updated : Val
  population : Option ℚ
  gdp_per_capita : Option ℚ
  created_at : Val
deriving DecidableEq, Repr

/-- `load_country_metadata`'s per-record row preparation: the rename
map is the identity, `population` and `gdp_per_capita` are filled
with `None`, `created_at` with today's date. -/
def toDbCountryRow (today : Val) (r : CountryRow) : DbCountryRow :=
  { country_code := r.country_code,
    country_name := r.country_name,
    region := r.region,
    income_group := r.income_group,
    data_available := r.data_available,
    last_updated := r.last_updated,
    population := none,
    gdp_per_capita := none,
    created_at := today }

/-- One `INSERT ... ON CONFLICT (country_code) DO UPDATE`: a row with
the same `country_code` has all its fields overwritten; with no code
conflict the row is inserted, unless the `country_name` UNIQUE
constraint (held by a row with a different code) rejects the
statement — the one failure mode `on_conflict_do_update` does not
absorb. -/
def upsertCountry (store : List DbCountryRow) (r : DbCountryRow) :
    Except String (List DbCountryRow) :=
  if store.any (fun x => decide (x.country_name = r.country_name) &&
      decide (x.country_code ≠ r.country_code)) then
    .error "UNIQUE constraint failed: countries.country_name"
  else if store.any (fun x => decide (x.country_code = r.country_code)) then
    .ok (store.map (fun x => if x.country_code = r.country_code then r else x))
  else .ok (store ++ [r])

/-- `EducationDataLoader.load_country_metadata`: per-record upsert in
record order; the first failing statement aborts the batch. -/
def load_country_metadata (today : Val) (store : List DbCountryRow) :
    List CountryRow → Except String (List DbCountryRow)
  | [] => .ok store
  | r :: rs =>
      match upsertCountry store (toDbCountryRow today r) with
      | .error e => .error e
      | .ok s1 => load_country_metadata today s1 rs

/-- A persisted fact row: labelled cells (surrogate `id` omitted). -/
abbrev FactRow : Type := List (String × Val)

/-- `EducationDataLoader.load_enrollment_data`: the rename map is the
identity, missing `education_level`/`gender` columns default to
`'Not Specified'`, `created_at` is set, and `to_sql(..., if_exists=
'append')` appends every row to the existing table. -/
def load_enrollment_data (today : Val) (store : List FactRow) (df : DataFrame) :
    List FactRow :=
  let d1 := if "education_level" ∈ df.cols then df
    else withConst df "education_level" (.vstr "Not Specified")
  let d2 := if "gender" ∈ d1.cols then d1
    else withConst d1 "gender" (.vstr "Not Specified")
  let d3 := withConst d2 "created_at" today
  store ++ d3.rows.map (fun r => d3.cols.zip r)

/-- `EducationDataLoader.load_graduation_data`. -/
def load_graduation_data (today : Val) (store : List FactRow) (df : DataFrame) :
    List FactRow :=
  let d1 := if "education_level" ∈ df.cols then df
    else withConst df "education_level" (.vstr "All Levels")
  let d2 := withConst d1 "created_at" today
  store ++ d2.rows.map (fun r => d2.cols.zip r)

/-- `EducationDataLoader.load_spending_data` (the missing
`spending_percent_gdp` column is filled with `None`). -/
def load_spending_data (today : Val) (store : List FactRow) (df : DataFrame) :
    List FactRow :=
  let d1 := if "spending_percent_gdp" ∈ df.cols then df
    else withConst df "spending_percent_gdp" .na
  let d2 := withConst d1 "created_at" today
  store ++ d2.rows.map (fun r => d2.cols.zip r)

/-! ## Generic facts about the frame operations -/

theorem mem_withConst_rows {df : DataFrame} {n : String} {v : Val} {r : List Val}
    (hr : r ∈ (withConst df n v).rows) :
    ∃ r₀ ∈ df.rows, r = rowSet df.cols r₀ n v := by
  simp only [withConst, List.mem_map] at hr
  obtain ⟨r₀, h₀, rfl⟩ := hr
  exact ⟨r₀, h₀, rfl⟩

theorem mem_withCol_rows {df : DataFrame} {dst src : String} {f : Val → Val}
    {r : List Val} (hr : r ∈ (withCol df dst src f).rows) :
    ∃ r₀ ∈ df.rows, r = rowSet df.cols r₀ dst (f (getCell df.cols r₀ src)) := by
  simp only [withCol, List.mem_map] at hr
  obtain ⟨r₀, h₀, rfl⟩ := hr
  exact ⟨r₀, h₀, rfl⟩

theorem mem_filterOn_rows {df : DataFrame} {cn : String} {p : Val → Bool}
    {r : List Val} (hr : r ∈ (filterOn df cn p).rows) :
    r ∈ df.rows ∧ p (getCell df.cols r cn) = true := by
  simpa [filterOn, List.mem_filter] using hr

theorem cols_withConst {df : DataFrame} {n : String} {v : Val} :
    (withConst df n v).cols = colsAfter df.cols n := rfl

theorem cols_withCol {df : DataFrame} {dst src : String} {f : Val → Val} :
    (withCol df dst src f).cols = colsAfter df.cols dst := rfl

theorem cols_filterOn {df : DataFrame} {cn : String} {p : Val → Bool} :
    (filterOn df cn p).cols = df.cols := rfl

theorem valBetween_eq_true {v : Val} {lo hi : ℚ} :
    valBetween v lo hi = true ↔ ∃ q, v = .vnum q ∧ lo ≤ q ∧ q ≤ hi := by
  cases v <;> simp [valBetween]

/-! ## Structure of the shared cleaning steps -/

theorem location_not_mem_stdCols (df : DataFrame) :
    "location" ∉ (stdCols df).cols := by
  simp only [stdCols, List.mem_map, not_exists]
  intro c
  rintro ⟨-, hc⟩
  exact standardizeColName_ne_location c hc

/-- The country-resolution branch is dead whenever no column is
named `location`. -/
theorem locationStep_of_not_mem {df : DataFrame}
    (h : "location" ∉ df.cols) : locationStep df = df := by
  simp [locationStep, h]

theorem cols_indicatorStep {m : String} {df : DataFrame} :
    (indicatorStep m df).cols = df.cols := by
  unfold indicatorStep
  split <;> rfl

theorem mem_indicatorStep_rows {m : String} {df : DataFrame} {r : List Val}
    (hr : r ∈ (indicatorStep m df).rows) : r ∈ df.rows := by
  unfold indicatorStep at hr
  split at hr
  · exact (mem_filterOn_rows hr).1
  · exact hr

theorem aligned_indicatorStep {m : String} {df : DataFrame} (h : df.Aligned) :
    (indicatorStep m df).Aligned := by
  unfold indicatorStep
  split
  · exact aligned_filterOn h
  · exact h

theorem aligned_yearStep {df : DataFrame} (h : df.Aligned) :
    (yearStep df).Aligned := by
  unfold yearStep
  split
  · exact aligned_filterOn (aligned_withCol h)
  · exact h

theorem aligned_cleanPre {m : String} {df : DataFrame} (h : df.Aligned) :
    (cleanPre m df).Aligned := by
  unfold cleanPre
  rw [locationStep_of_not_mem (by rw [cols_indicatorStep]; exact location_not_mem_stdCols df)]
  exact aligned_yearStep (aligned_indicatorStep (aligned_stdCols h))

/-! ## C4: fact appends are blind and re-running doubles the rows -/

theorem rows_length_withConst {df : DataFrame} {n : String} {v : Val} :
    (withConst df n v).rows.length = df.rows.length := by
  simp [withConst]

theorem rows_length_defaultCol (df : DataFrame) (n : String) (v : Val) :
    (if n ∈ df.cols then df else withConst df n v).rows.length = df.rows.length := by
  split <;> simp [withConst]

theorem length_load_enrollment (today : Val) (s : List FactRow) (df : DataFrame) :
    (load_enrollment_data today s df).length = s.length + df.rows.length := by
  unfold load_enrollment_data
  simp [rows_length_withConst, rows_length_defaultCol]

theorem length_load_graduation (today : Val) (s : List FactRow) (df : DataFrame) :
    (load_graduation_data today s df).length = s.length + df.rows.length := by
  unfold load_graduation_data
  simp [rows_length_withConst, rows_length_defaultCol]

theorem length_load_spending (today : Val) (s : List FactRow) (df : DataFrame) :
    (load_spending_data today s df).length = s.length + df.rows.length := by
  unfold load_spending_data
  simp [rows_length_withConst, rows_length_defaultCol]

theorem take_load_enrollment (today : Val) (s : List FactRow) (df : DataFrame) :
    (load_enrollment_data today s df).take s.length = s := by
  unfold load_enrollment_data
  simp [List.take_append_of_le_length]

theorem take_load_graduation (today : Val) (s : List FactRow) (df : DataFrame) :
    (load_graduation_data today s df).take s.length = s := by
  unfold load_graduation_data
  simp [List.take_append_of_le_length]

theorem take_load_spending (today : Val) (s : List FactRow) (df : DataFrame) :
    (load_spending_data today s df).take s.length = s := by
  unfold load_spending_data
  simp [List.take_append_of_le_length]

/-- C4.  For every starting store, every batch and all three fact
loaders, loading is a pure append: the existing rows survive as a
prefix, and loading the same batch twice adds exactly `2 * n` rows —
no loader inspects the store for duplicates. -/
theorem fact_load_append_doubles (today : Val) (s : List FactRow) (df : DataFrame) :
    ((load_enrollment_data today (load_enrollment_data today s df) df).length
        = s.length + 2 * df.rows.length ∧
      (load_enrollment_data today s df).take s.length = s) ∧
    ((load_graduation_data today (load_graduation_data today s df) df).length
        = s.length + 2 * df.rows.length ∧
      (load_graduation_data today s df).take s.length = s) ∧
    ((load_spending_data today (load_spending_data today s df) df).length
        = s.length + 2 * df.rows.length ∧
      (load_spending_data today s df).take s.length = s) := by
  refine ⟨⟨?_, take_load_enrollment today s df⟩,
    ⟨?_, take_load_graduation today s df⟩,
    ⟨?_, take_load_spending today s df⟩⟩
  · rw [length_load_enrollment, length_load_enrollment]; ring
  · rw [length_load_graduation, length_load_graduation]; ring
  · rw [length_load_spending, length_load_spending]; ring

instance {e a : Type} [DecidableEq e] [DecidableEq a] : DecidableEq (Except e a)
  | .error x, .error y =>
      if h : x = y then .isTrue (by rw [h])
      else .isFalse (by intro hh; cases hh; exact h rfl)
  | .error _, .ok _ => .isFalse (by intro h; cases h)
  | .ok _, .error _ => .isFalse (by intro h; cases h)
  | .ok x, .ok y =>
      if h : x = y then .isTrue (by rw [h])
      else .isFalse (by intro hh; cases hh; exact h rfl)

/-! ## C8: a malformed index token aborts the whole decode -/

theorem parseTokens_ok_forall {ts : List String} {is : List Int}
    (h : parseTokens ts = some is) : ∀ t ∈ ts, ∃ i, pyInt t = some i := by
  induction ts generalizing is with
  | nil => simp
  | cons t ts ih =>
      intro u hu
      unfold parseTokens at h
      cases hp : pyInt t with
      | none => rw [hp] at h; exact absurd h (by simp)
      | some i =>
          rw [hp] at h
          cases hrest : parseTokens ts with
          | none => rw [hrest] at h; exact absurd h (by simp)
          | some is' =>
              rcases List.mem_cons.mp hu with rfl | hu'
              · exact ⟨i, hp⟩
              · exact ih hrest u hu'

theorem parseOecdJson_ok_forall {observations : List (String × List Val)}
    {dims : List Dim} {rs : List (List (String × Val))}
    (h : parseOecdJson observations dims = .ok rs) :
    ∀ kv ∈ observations, ∃ r, decodeObservation dims kv.1 kv.2 = .ok r := by
  induction observations generalizing rs with
  | nil => simp
  | cons kv rest ih =>
      intro u hu
      unfold parseOecdJson at h
      cases hd : decodeObservation dims kv.1 kv.2 with
      | error e => rw [hd] at h; exact absurd h (by simp)
      | ok r =>
          rw [hd] at h
          cases hrest : parseOecdJson rest dims with
          | error e => rw [hrest] at h; exact absurd h (by simp)
          | ok rs' =>
              rcases List.mem_cons.mp hu with rfl | hu'
              · exact ⟨r, hd⟩
              · exact ih hrest u hu'

/-- C8.  If any observation key contains a token `int` rejects, the
whole dataset decode returns a parse error: no partial record list is
produced for it. -/
theorem decode_aborts_on_bad_token (observations : List (String × List Val))
    (dims : List Dim)
    (h : ∃ kv ∈ observations,
      ∃ t ∈ (splitOnChar ':' kv.1.toList).map String.mk, pyInt t = none) :
    ∃ e, parseOecdJson observations dims = .error e := by
  obtain ⟨kv, hkv, t, ht, hbad⟩ := h
  cases hres : parseOecdJson observations dims with
  | error e => exact ⟨e, rfl⟩
  | ok rs =>
      obtain ⟨r, hr⟩ := parseOecdJson_ok_forall hres kv hkv
      unfold decodeObservation at hr
      cases hkey : parseObsKey kv.1 with
      | none => rw [hkey] at hr; exact absurd hr (by simp)
      | some indices =>
          obtain ⟨i, hi⟩ := parseTokens_ok_forall hkey t ht
          rw [hbad] at hi
          exact absurd hi (by simp)

/-! ## C1: the end-to-end scenario (dimension decode, then the
enrollment cleaner) -/

/-- The scenario's dimension dictionary. -/
def c1Dims : List Dim :=
  [{ name := some "LOCATION", values := [{ name := some "USA" }] },
   { name := some "TIME", values := [{ name := some "2022" }] }]

/-- The scenario's decoded frame. -/
def c1Frame : DataFrame :=
  dfOfRecords [[("LOCATION", .vstr "USA"), ("TIME", .vstr "2022"),
    ("value", .vnum (mkRat 191 2))]]

/-- The cleaner's output on the scenario. -/
def c1Out : DataFrame := clean_enrollment_data (.vstr "2024-01-15") c1Frame

/-- C1 (divergence witnessed at the claimed input).  Decoding
`{"0:0": [95.5]}` against the scenario's dimensions yields exactly
the flat record `{LOCATION: "USA", TIME: "2022", value: 95.5}` — the
decode half of the claim holds — and the enrollment cleaner's output
on it keeps `country_code = "USA"`, `year = 2022`,
`enrollment_rate = 95.5`, but produces **no** `country_name` column
at all: standardization renames `LOCATION` to `country_code` before
the resolution branch tests for a `location` column, so
`country_name = "United States"` is never produced. -/
theorem c1_end_to_end_missing_country_name :
    parseOecdJson [("0:0", [.vnum (mkRat 191 2)])] c1Dims =
      .ok [[("LOCATION", .vstr "USA"), ("TIME", .vstr "2022"),
        ("value", .vnum (mkRat 191 2))]] ∧
    c1Out.rows.length = 1 ∧
    getCell c1Out.cols (c1Out.rows.getD 0 []) "country_code" = .vstr "USA" ∧
    getCell c1Out.cols (c1Out.rows.getD 0 []) "year" = .vnum 2022 ∧
    getCell c1Out.cols (c1Out.rows.getD 0 []) "enrollment_rate" = .vnum (mkRat 191 2) ∧
    "country_name" ∉ c1Out.cols ∧
    (∀ c ∈ c1Out.cols,
      getCell c1Out.cols (c1Out.rows.getD 0 []) c ≠ .vstr "United States") := by
  decide

/-! ## The `mkRat`-based helpers agree with rational arithmetic -/

theorem qAdd_eq (a b : ℚ) : qAdd a b = a + b := (Rat.add_def' a b).symm

theorem qSub_eq (a b : ℚ) : qSub a b = a - b := (Rat.sub_def' a b).symm

theorem qMul_eq (a b : ℚ) : qMul a b = a * b := by
  unfold qMul
  rw [← Rat.mkRat_self a, ← Rat.mkRat_self b, Rat.mkRat_mul_mkRat]
  simp [Rat.mkRat_self]

theorem qFloor_eq (a : ℚ) : qFloor a = ⌊a⌋ := by
  unfold qFloor
  rw [Int.fdiv_eq_ediv _ (by positivity), ← Rat.floor_int_div_nat_eq_div,
    Rat.num_div_den]

theorem div100_vnum (q : ℚ) : div100 (.vnum q) = .vnum (q / 100) := by
  have : mkRat q.num (q.den * 100) = q / 100 := by
    rw [Rat.mkRat_eq_div]
    push_cast
    conv_rhs => rw [← Rat.num_div_den q]
    rw [div_div]
  simp [div100, this]

/-- C8 witness input: the key `"0:x"` has the non-integer token `"x"`. -/
theorem decode_aborts_on_bad_token_witness :
    (∃ kv ∈ [("0:x", [Val.vnum 1])],
      ∃ t ∈ (splitOnChar ':' kv.1.toList).map String.mk, pyInt t = none) ∧
    ∃ e, parseOecdJson [("0:x", [Val.vnum 1])] [] = .error e :=
  ⟨by decide, decode_aborts_on_bad_token _ _ (by decide)⟩

/-! ## Cell pass-through: machinery for C2 and C10 -/

/-- Every output row's cell at column `c` is some input row's cell at
`c`, untouched. -/
def CellPreserved (c : String) (dfIn dfOut : DataFrame) : Prop :=
  ∀ r ∈ dfOut.rows, ∃ r₀ ∈ dfIn.rows,
    getCell dfOut.cols r c = getCell dfIn.cols r₀ c

theorem cellPreserved_refl (c : String) (df : DataFrame) :
    CellPreserved c df df :=
  fun r hr => ⟨r, hr, rfl⟩

theorem cellPreserved_trans {c : String} {d1 d2 d3 : DataFrame}
    (h12 : CellPreserved c d1 d2) (h23 : CellPreserved c d2 d3) :
    CellPreserved c d1 d3 := by
  intro r hr
  obtain ⟨r2, hr2, e2⟩ := h23 r hr
  obtain ⟨r1, hr1, e1⟩ := h12 r2 hr2
  exact ⟨r1, hr1, e2.trans e1⟩

theorem cellPreserved_withConst {df : DataFrame} {n : String} {v : Val}
    {c : String} (h : df.Aligned) (hc : c ≠ n) :
    CellPreserved c df (withConst df n v) := by
  intro r hr
  obtain ⟨r₀, h₀, rfl⟩ := mem_withConst_rows hr
  exact ⟨r₀, h₀, getCell_rowSet_other (h r₀ h₀) hc⟩

theorem cellPreserved_withCol {df : DataFrame} {dst src : String}
    {f : Val → Val} {c : String} (h : df.Aligned) (hc : c ≠ dst) :
    CellPreserved c df (withCol df dst src f) := by
  intro r hr
  obtain ⟨r₀, h₀, rfl⟩ := mem_withCol_rows hr
  exact ⟨r₀, h₀, getCell_rowSet_other (h r₀ h₀) hc⟩

theorem cellPreserved_filterOn {df : DataFrame} {cn : String}
    {p : Val → Bool} {c : String} :
    CellPreserved c df (filterOn df cn p) :=
  fun r hr => ⟨r, (mem_filterOn_rows hr).1, rfl⟩

theorem cellPreserved_indicatorStep {m : String} {df : DataFrame} {c : String} :
    CellPreserved c df (indicatorStep m df) := by
  unfold indicatorStep
  split
  · exact cellPreserved_filterOn
  · exact cellPreserved_refl c df

theorem cellPreserved_yearStep {df : DataFrame} {c : String}
    (h : df.Aligned) (hc : c ≠ "year") :
    CellPreserved c df (yearStep df) := by
  unfold yearStep
  split
  · exact cellPreserved_trans (cellPreserved_withCol h hc) cellPreserved_filterOn
  · exact cellPreserved_refl c df

theorem cellPreserved_cleanPre {m : String} {df : DataFrame} {c : String}
    (h : df.Aligned) (hc : c ≠ "year") :
    CellPreserved c (stdCols df) (cleanPre m df) := by
  unfold cleanPre
  rw [locationStep_of_not_mem
    (by rw [cols_indicatorStep]; exact location_not_mem_stdCols df)]
  exact cellPreserved_trans cellPreserved_indicatorStep
    (cellPreserved_yearStep (aligned_indicatorStep (aligned_stdCols h)) hc)

theorem aligned_enrollValueStep {df : DataFrame} (h : df.Aligned) :
    (enrollValueStep df).Aligned := by
  unfold enrollValueStep
  split
  · exact aligned_filterOn (aligned_withCol h)
  · exact h

theorem aligned_gradValueStep {df : DataFrame} (h : df.Aligned) :
    (gradValueStep df).Aligned := by
  unfold gradValueStep
  split
  · exact aligned_filterOn (aligned_withCol h)
  · exact h

theorem aligned_spendValueStep {df : DataFrame} (h : df.Aligned) :
    (spendValueStep df).Aligned := by
  unfold spendValueStep
  split
  · exact aligned_filterOn (aligned_withCol h)
  · exact h

theorem aligned_gradCompletionStep {df : DataFrame} (h : df.Aligned) :
    (gradCompletionStep df).Aligned := by
  unfold gradCompletionStep
  split
  · exact aligned_withCol h
  · exact h

theorem aligned_spendPerCapitaStep {df : DataFrame} (h : df.Aligned) :
    (spendPerCapitaStep df).Aligned := by
  unfold spendPerCapitaStep
  split
  · exact aligned_withCol h
  · exact h

theorem cellPreserved_enrollValueStep {df : DataFrame} {c : String}
    (h : df.Aligned) (hc : c ≠ "enrollment_rate") :
    CellPreserved c df (enrollValueStep df) := by
  unfold enrollValueStep
  split
  · exact cellPreserved_trans (cellPreserved_withCol h hc) cellPreserved_filterOn
  · exact cellPreserved_refl c df

theorem cellPreserved_gradValueStep {df : DataFrame} {c : String}
    (h : df.Aligned) (hc : c ≠ "graduation_rate") :
    CellPreserved c df (gradValueStep df) := by
  unfold gradValueStep
  split
  · exact cellPreserved_trans (cellPreserved_withCol h hc) cellPreserved_filterOn
  · exact cellPreserved_refl c df

theorem cellPreserved_spendValueStep {df : DataFrame} {c : String}
    (h : df.Aligned) (hc : c ≠ "spending_usd") :
    CellPreserved c df (spendValueStep df) := by
  unfold spendValueStep
  split
  · exact cellPreserved_trans (cellPreserved_withCol h hc) cellPreserved_filterOn
  · exact cellPreserved_refl c df

theorem cellPreserved_gradCompletionStep {df : DataFrame} {c : String}
    (h : df.Aligned) (hc : c ≠ "completion_rate") :
    CellPreserved c df (gradCompletionStep df) := by
  unfold gradCompletionStep
  split
  · exact cellPreserved_withCol h hc
  · exact cellPreserved_refl c df

theorem cellPreserved_spendPerCapitaStep {df : DataFrame} {c : String}
    (h : df.Aligned) (hc : c ≠ "spending_per_capita") :
    CellPreserved c df (spendPerCapitaStep df) := by
  unfold spendPerCapitaStep
  split
  · exact cellPreserved_withCol h hc
  · exact cellPreserved_refl c df

/-- The raw `country_code` cell (the renamed raw location token)
passes through the enrollment cleaner untouched. -/
theorem countryCode_passthrough_enroll (today : Val) (df : DataFrame)
    (h : df.Aligned) :
    CellPreserved "country_code" (stdCols df) (clean_enrollment_data today df) := by
  unfold clean_enrollment_data
  have a1 : (cleanPre "ENRL" df).Aligned := aligned_cleanPre h
  have a2 := aligned_enrollValueStep a1
  have a3 : (withConst (enrollValueStep (cleanPre "ENRL" df))
      "data_source" (Val.vstr "OECD")).Aligned := aligned_withConst a2
  exact cellPreserved_trans
    (cellPreserved_trans
      (cellPreserved_trans (cellPreserved_cleanPre h (by decide))
        (cellPreserved_enrollValueStep a1 (by decide)))
      (cellPreserved_withConst a2 (by decide)))
    (cellPreserved_withConst a3 (by decide))

/-- Likewise for the graduation cleaner. -/
theorem countryCode_passthrough_grad (today : Val) (df : DataFrame)
    (h : df.Aligned) :
    CellPreserved "country_code" (stdCols df) (clean_graduation_data today df) := by
  unfold clean_graduation_data
  have a1 : (cleanPre "GRAD" df).Aligned := aligned_cleanPre h
  have a2 := aligned_gradValueStep a1
  have a3 := aligned_gradCompletionStep a2
  have a4 : (withConst (gradCompletionStep (gradValueStep (cleanPre "GRAD" df)))
      "data_source" (Val.vstr "OECD")).Aligned := aligned_withConst a3
  exact cellPreserved_trans
    (cellPreserved_trans
      (cellPreserved_trans
        (cellPreserved_trans (cellPreserved_cleanPre h (by decide))
          (cellPreserved_gradValueStep a1 (by decide)))
        (cellPreserved_gradCompletionStep a2 (by decide)))
      (cellPreserved_withConst a3 (by decide)))
    (cellPreserved_withConst a4 (by decide))

/-- Likewise for the spending cleaner. -/
theorem countryCode_passthrough_spend (today : Val) (df : DataFrame)
    (h : df.Aligned) :
    CellPreserved "country_code" (stdCols df) (clean_spending_data today df) := by
  unfold clean_spending_data
  have a1 : (cleanPre "FIN" df).Aligned := aligned_cleanPre h
  have a2 := aligned_spendValueStep a1
  have a3 := aligned_spendPerCapitaStep a2
  have a4 : (withConst (spendPerCapitaStep (spendValueStep (cleanPre "FIN" df)))
      "data_source" (Val.vstr "OECD")).Aligned := aligned_withConst a3
  have a5 : (withConst (withConst (spendPerCapitaStep (spendValueStep (cleanPre "FIN" df)))
      "data_source" (Val.vstr "OECD")) "extraction_date" today).Aligned := aligned_withConst a4
  exact cellPreserved_trans
    (cellPreserved_trans
      (cellPreserved_trans
        (cellPreserved_trans
          (cellPreserved_trans (cellPreserved_cleanPre h (by decide))
            (cellPreserved_spendValueStep a1 (by decide)))
          (cellPreserved_spendPerCapitaStep a2 (by decide)))
        (cellPreserved_withConst a3 (by decide)))
      (cellPreserved_withConst a4 (by decide)))
    (cellPreserved_withConst a5 (by decide))

/-! ## C2: country codes are NOT 3-character upper-cased truncations -/

/-- A frame whose raw location token is `"germany"`. -/
def c2Df : DataFrame :=
  { cols := ["LOCATION", "TIME", "value"],
    rows := [[.vstr "germany", .vstr "2010", .vstr "50"]] }

def c2Out : DataFrame := clean_enrollment_data (.vstr "2024-01-15") c2Df

/-- C2 counterexample.  The row survives the enrollment cleaner, yet
its `country_code` is the 7-character lower-case raw token
`"germany"`, not the upper-cased 3-character truncation `"GER"` the
claim requires. -/
theorem c2_counterexample :
    c2Out.rows.length = 1 ∧
    getCell c2Out.cols (c2Out.rows.getD 0 []) "country_code" = .vstr "germany" ∧
    "germany".length ≠ 3 ∧
    getCell c2Out.cols (c2Out.rows.getD 0 []) "country_code" ≠ .vstr "GER" := by
  decide

/-- C2 amended.  For every aligned input frame and each of the three
cleaners, a surviving row's `country_code` cell is some input row's
raw location token passed through unmodified (the column is merely
renamed by standardization; no truncation and no upper-casing ever
happens, because the resolution branch tests for a column name that
standardization has already rewritten). -/
theorem country_code_is_raw_location_token (today : Val) (df : DataFrame)
    (h : df.Aligned) :
    CellPreserved "country_code" (stdCols df) (clean_enrollment_data today df) ∧
    CellPreserved "country_code" (stdCols df) (clean_graduation_data today df) ∧
    CellPreserved "country_code" (stdCols df) (clean_spending_data today df) :=
  ⟨countryCode_passthrough_enroll today df h,
   countryCode_passthrough_grad today df h,
   countryCode_passthrough_spend today df h⟩

/-- C2 amended, witness: the concrete frame above is aligned, and
applying the theorem to it confirms the pass-through. -/
theorem country_code_is_raw_location_token_witness :
    c2Df.Aligned ∧
    (CellPreserved "country_code" (stdCols c2Df)
        (clean_enrollment_data (.vstr "2024-01-15") c2Df) ∧
      CellPreserved "country_code" (stdCols c2Df)
        (clean_graduation_data (.vstr "2024-01-15") c2Df) ∧
      CellPreserved "country_code" (stdCols c2Df)
        (clean_spending_data (.vstr "2024-01-15") c2Df)) :=
  ⟨by decide,
   country_code_is_raw_location_token (.vstr "2024-01-15") c2Df (by decide)⟩

/-! ## C6: enrollment bounds hold only when the time data arrives in
a `time` column -/

theorem cleanPre_eq (m : String) (df : DataFrame) :
    cleanPre m df = yearStep (indicatorStep m (stdCols df)) := by
  unfold cleanPre
  rw [locationStep_of_not_mem
    (by rw [cols_indicatorStep]; exact location_not_mem_stdCols df)]

/-- A frame whose time data arrives as `TIME_PERIOD`: standardization
maps it straight to `year`, the cleaner's `'time' in df.columns`
check fails, and no window filter ever runs. -/
def c6Df : DataFrame :=
  { cols := ["TIME_PERIOD", "value"],
    rows := [[.vstr "1875", .vstr "50"]] }

def c6Out : DataFrame := clean_enrollment_data (.vstr "2024-01-15") c6Df

/-- C6 counterexample.  The single row survives the enrollment
cleaner with `enrollment_rate = 50`, yet its `year` cell is the raw
string `"1875"`: it was never coerced and never window-filtered, so
the surviving record's year is not in 2000–2023. -/
theorem c6_counterexample :
    c6Out.rows.length = 1 ∧
    getCell c6Out.cols (c6Out.rows.getD 0 []) "enrollment_rate" = .vnum 50 ∧
    getCell c6Out.cols (c6Out.rows.getD 0 []) "year" = .vstr "1875" ∧
    ¬∃ y : ℚ, getCell c6Out.cols (c6Out.rows.getD 0 []) "year" = .vnum y ∧
      2000 ≤ y ∧ y ≤ 2023 := by
  refine ⟨by decide, by decide, by decide, ?_⟩
  rintro ⟨y, hy, -, -⟩
  rw [show getCell c6Out.cols (c6Out.rows.getD 0 []) "year" = .vstr "1875"
    from by decide] at hy
  exact Val.noConfusion hy

/-- C6 amended.  When the standardized input does have a `time`
column and a `value` column, every record surviving the enrollment
cleaner has a numeric year in the 2000–2023 window and a numeric
enrollment rate in `[0, 200]`. -/
theorem enrollment_bounds_of_time_value_cols (today : Val) (df : DataFrame)
    (h : df.Aligned) (ht : "time" ∈ (stdCols df).cols)
    (hv : "value" ∈ (stdCols df).cols) :
    ∀ r ∈ (clean_enrollment_data today df).rows,
      (∃ y : ℚ,
        getCell (clean_enrollment_data today df).cols r "year" = .vnum y ∧
          2000 ≤ y ∧ y ≤ 2023) ∧
      (∃ e : ℚ,
        getCell (clean_enrollment_data today df).cols r "enrollment_rate" = .vnum e ∧
          0 ≤ e ∧ e ≤ 200) := by
  intro r hr
  set s := indicatorStep "ENRL" (stdCols df) with hs
  have hscols : s.cols = (stdCols df).cols := cols_indicatorStep
  have hts : "time" ∈ s.cols := by rw [hscols]; exact ht
  have hsal : s.Aligned := aligned_indicatorStep (aligned_stdCols h)
  set y1 := withCol s "year" "time" toNumeric with hy1
  set y2 := filterOn y1 "year" (fun v => valBetween v 2000 2023) with hy2
  have hy1al : y1.Aligned := aligned_withCol hsal
  have hy2al : y2.Aligned := aligned_filterOn hy1al
  have hpre : cleanPre "ENRL" df = y2 := by
    rw [cleanPre_eq, ← hs]
    unfold yearStep
    rw [if_pos hts]
  have hvy : "value" ∈ y2.cols := by
    show "value" ∈ colsAfter s.cols "year"
    exact mem_colsAfter.mpr (Or.inl (hscols ▸ hv))
  set e1 := withCol y2 "enrollment_rate" "value" toNumeric with he1
  set e2 := filterOn e1 "enrollment_rate" (fun v => valBetween v 0 200) with he2
  have he1al : e1.Aligned := aligned_withCol hy2al
  have he2al : e2.Aligned := aligned_filterOn he1al
  have hval : enrollValueStep y2 = e2 := by
    unfold enrollValueStep
    rw [if_pos hvy]
  have hout : clean_enrollment_data today df =
      withConst (withConst e2 "data_source" (.vstr "OECD"))
        "extraction_date" today := by
    unfold clean_enrollment_data
    rw [hpre, hval]
  rw [hout] at hr ⊢
  obtain ⟨r4, hr4, rfl⟩ := mem_withConst_rows hr
  have hc4 : (withConst e2 "data_source" (Val.vstr "OECD")).Aligned :=
    aligned_withConst he2al
  obtain ⟨r3, hr3, hr43⟩ := mem_withConst_rows hr4
  have eqcell : ∀ c : String, c ≠ "extraction_date" → c ≠ "data_source" →
      getCell (withConst (withConst e2 "data_source" (.vstr "OECD"))
          "extraction_date" today).cols
        (rowSet (withConst e2 "data_source" (.vstr "OECD")).cols r4
          "extraction_date" today) c =
      getCell e2.cols r3 c := by
    intro c hc1 hc2
    rw [cols_withConst, getCell_rowSet_other (hc4 r4 hr4) hc1, hr43,
      cols_withConst, getCell_rowSet_other (he2al r3 hr3) hc2]
  have hr3' : r3 ∈ e1.rows ∧
      valBetween (getCell e1.cols r3 "enrollment_rate") 0 200 = true := by
    rw [he2] at hr3
    exact mem_filterOn_rows hr3
  obtain ⟨hr3e1, hrate⟩ := hr3'
  constructor
  · -- year cell: numeric and inside the window
    rw [he1] at hr3e1
    obtain ⟨r2, hr2, hr32⟩ := mem_withCol_rows hr3e1
    have hr2' : r2 ∈ y1.rows ∧
        valBetween (getCell y1.cols r2 "year") 2000 2023 = true := by
      rw [hy2] at hr2
      exact mem_filterOn_rows hr2
    obtain ⟨y, hyv, hy1b, hy2b⟩ := valBetween_eq_true.mp hr2'.2
    refine ⟨y, ?_, hy1b, hy2b⟩
    rw [eqcell "year" (by decide) (by decide)]
    show getCell e1.cols r3 "year" = _
    rw [he1, cols_withCol, hr32,
      getCell_rowSet_other (hy2al r2 hr2) (by decide)]
    exact hyv
  · -- enrollment rate cell: numeric and inside the range
    obtain ⟨e, hev, he1b, he2b⟩ := valBetween_eq_true.mp hrate
    exact ⟨e,
      by rw [eqcell "enrollment_rate" (by decide) (by decide)]; exact hev,
      he1b, he2b⟩

/-- C6 amended, witness. -/
theorem enrollment_bounds_of_time_value_cols_witness :
    let df : DataFrame :=
      { cols := ["TIME", "value"], rows := [[.vstr "2011", .vstr "99"]] }
    df.Aligned ∧ "time" ∈ (stdCols df).cols ∧ "value" ∈ (stdCols df).cols ∧
    ∀ r ∈ (clean_enrollment_data (.vstr "2024-01-15") df).rows,
      (∃ y : ℚ,
        getCell (clean_enrollment_data (.vstr "2024-01-15") df).cols r "year" =
          .vnum y ∧ 2000 ≤ y ∧ y ≤ 2023) ∧
      (∃ e : ℚ,
        getCell (clean_enrollment_data (.vstr "2024-01-15") df).cols r
          "enrollment_rate" = .vnum e ∧ 0 ≤ e ∧ e ≤ 200) :=
  ⟨by decide, by decide, by decide,
   enrollment_bounds_of_time_value_cols (.vstr "2024-01-15") _
     (by decide) (by decide) (by decide)⟩

/-! ## C5: completion rate is exactly graduation rate over 100 -/

/-- C5.  Every row surviving the graduation cleaner whose
`graduation_rate` cell is a number `g` has `completion_rate` exactly
`g / 100`. -/
theorem completion_rate_is_graduation_over_100 (today : Val) (df : DataFrame)
    (h : df.Aligned) :
    ∀ r ∈ (clean_graduation_data today df).rows, ∀ g : ℚ,
      getCell (clean_graduation_data today df).cols r "graduation_rate" =
        .vnum g →
      getCell (clean_graduation_data today df).cols r "completion_rate" =
        .vnum (g / 100) := by
  intro r hr g hg
  set d := gradValueStep (cleanPre "GRAD" df) with hd
  have hdal : d.Aligned := aligned_gradValueStep (aligned_cleanPre h)
  have hcal : (gradCompletionStep d).Aligned := aligned_gradCompletionStep hdal
  have hout : clean_graduation_data today df =
      withConst (withConst (gradCompletionStep d) "data_source" (.vstr "OECD"))
        "extraction_date" today := by
    unfold clean_graduation_data
    rw [hd]
  rw [hout] at hr hg ⊢
  obtain ⟨r4, hr4, rfl⟩ := mem_withConst_rows hr
  have hc4 : (withConst (gradCompletionStep d) "data_source"
      (Val.vstr "OECD")).Aligned := aligned_withConst hcal
  obtain ⟨r3, hr3, hr43⟩ := mem_withConst_rows hr4
  have eqcell : ∀ c : String, c ≠ "extraction_date" → c ≠ "data_source" →
      getCell (withConst (withConst (gradCompletionStep d) "data_source"
          (.vstr "OECD")) "extraction_date" today).cols
        (rowSet (withConst (gradCompletionStep d) "data_source"
          (.vstr "OECD")).cols r4 "extraction_date" today) c =
      getCell (gradCompletionStep d).cols r3 c := by
    intro c hc1 hc2
    rw [cols_withConst, getCell_rowSet_other (hc4 r4 hr4) hc1, hr43,
      cols_withConst, getCell_rowSet_other (hcal r3 hr3) hc2]
  rw [eqcell "graduation_rate" (by decide) (by decide)] at hg
  rw [eqcell "completion_rate" (by decide) (by decide)]
  by_cases hgc : "graduation_rate" ∈ d.cols
  · have hstep : gradCompletionStep d =
        withCol d "completion_rate" "graduation_rate" div100 := by
      unfold gradCompletionStep
      rw [if_pos hgc]
    rw [hstep] at hr3 hg ⊢
    obtain ⟨r0, hr0, hr30⟩ := mem_withCol_rows hr3
    rw [cols_withCol, hr30,
      getCell_rowSet_other (hdal r0 hr0) (by decide)] at hg
    rw [cols_withCol, hr30, getCell_rowSet_same (hdal r0 hr0), hg]
    exact div100_vnum g
  · have hstep : gradCompletionStep d = d := by
      unfold gradCompletionStep
      rw [if_neg hgc]
    rw [hstep] at hg
    rw [getCell_absent (hdal r3 (hstep ▸ hr3)) hgc] at hg
    exact absurd hg (by simp)

/-- C5 witness: a concrete surviving row with `graduation_rate = 80`
gets `completion_rate = 4/5`. -/
theorem completion_rate_is_graduation_over_100_witness :
    let df : DataFrame :=
      { cols := ["LOCATION", "TIME", "value"],
        rows := [[.vstr "USA", .vstr "2010", .vstr "80"]] }
    let out := clean_graduation_data (.vstr "2024-01-15") df
    df.Aligned ∧
    out.rows.getD 0 [] ∈ out.rows ∧
    getCell out.cols (out.rows.getD 0 []) "graduation_rate" = .vnum 80 ∧
    getCell out.cols (out.rows.getD 0 []) "completion_rate" = .vnum (80 / 100) :=
  ⟨by decide, by decide, by decide,
   completion_rate_is_graduation_over_100 (.vstr "2024-01-15") _ (by decide) _
     (by decide) 80 (by decide)⟩

/-! ## C10: no `location` column survives standardization, so the
resolution branch is dead -/

theorem not_mem_colsAfter {cols : List String} {n c : String}
    (hc : c ∉ cols) (hne : c ≠ n) : c ∉ colsAfter cols n :=
  fun hmem => (mem_colsAfter.mp hmem).elim hc hne

theorem not_mem_cols_indicatorStep {m : String} {df : DataFrame} {c : String}
    (hc : c ∉ df.cols) : c ∉ (indicatorStep m df).cols := by
  rw [cols_indicatorStep]; exact hc

theorem not_mem_cols_yearStep {df : DataFrame} {c : String}
    (hc : c ∉ df.cols) (hne : c ≠ "year") : c ∉ (yearStep df).cols := by
  unfold yearStep
  split
  · show c ∉ colsAfter df.cols "year"
    exact not_mem_colsAfter hc hne
  · exact hc

theorem not_mem_cols_cleanPre {m : String} {df : DataFrame} {c : String}
    (hc : c ∉ (stdCols df).cols) (hne : c ≠ "year") :
    c ∉ (cleanPre m df).cols := by
  rw [cleanPre_eq]
  exact not_mem_cols_yearStep (not_mem_cols_indicatorStep hc) hne

theorem not_mem_cols_enrollValueStep {df : DataFrame} {c : String}
    (hc : c ∉ df.cols) (hne : c ≠ "enrollment_rate") :
    c ∉ (enrollValueStep df).cols := by
  unfold enrollValueStep
  split
  · show c ∉ colsAfter df.cols "enrollment_rate"
    exact not_mem_colsAfter hc hne
  · exact hc

theorem not_mem_cols_gradValueStep {df : DataFrame} {c : String}
    (hc : c ∉ df.cols) (hne : c ≠ "graduation_rate") :
    c ∉ (gradValueStep df).cols := by
  unfold gradValueStep
  split
  · show c ∉ colsAfter df.cols "graduation_rate"
    exact not_mem_colsAfter hc hne
  · exact hc

theorem not_mem_cols_spendValueStep {df : DataFrame} {c : String}
    (hc : c ∉ df.cols) (hne : c ≠ "spending_usd") :
    c ∉ (spendValueStep df).cols := by
  unfold spendValueStep
  split
  · show c ∉ colsAfter df.cols "spending_usd"
    exact not_mem_colsAfter hc hne
  · exact hc

theorem not_mem_cols_gradCompletionStep {df : DataFrame} {c : String}
    (hc : c ∉ df.cols) (hne : c ≠ "completion_rate") :
    c ∉ (gradCompletionStep df).cols := by
  unfold gradCompletionStep
  split
  · show c ∉ colsAfter df.cols "completion_rate"
    exact not_mem_colsAfter hc hne
  · exact hc

theorem not_mem_cols_spendPerCapitaStep {df : DataFrame} {c : String}
    (hc : c ∉ df.cols) (hne : c ≠ "spending_per_capita") :
    c ∉ (spendPerCapitaStep df).cols := by
  unfold spendPerCapitaStep
  split
  · show c ∉ colsAfter df.cols "spending_per_capita"
    exact not_mem_colsAfter hc hne
  · exact hc

theorem no_country_name_enroll {today : Val} {df : DataFrame}
    (hn : "country_name" ∉ (stdCols df).cols) :
    "country_name" ∉ (clean_enrollment_data today df).cols := by
  unfold clean_enrollment_data
  rw [cols_withConst, cols_withConst]
  exact not_mem_colsAfter (not_mem_colsAfter
    (not_mem_cols_enrollValueStep
      (not_mem_cols_cleanPre hn (by decide)) (by decide))
    (by decide)) (by decide)

theorem no_country_name_grad {today : Val} {df : DataFrame}
    (hn : "country_name" ∉ (stdCols df).cols) :
    "country_name" ∉ (clean_graduation_data today df).cols := by
  unfold clean_graduation_data
  rw [cols_withConst, cols_withConst]
  exact not_mem_colsAfter (not_mem_colsAfter
    (not_mem_cols_gradCompletionStep
      (not_mem_cols_gradValueStep
        (not_mem_cols_cleanPre hn (by decide)) (by decide))
      (by decide))
    (by decide)) (by decide)

theorem no_country_name_spend {today : Val} {df : DataFrame}
    (hn : "country_name" ∉ (stdCols df).cols) :
    "country_name" ∉ (clean_spending_data today df).cols := by
  unfold clean_spending_data
  rw [cols_withConst, cols_withConst, cols_withConst]
  exact not_mem_colsAfter (not_mem_colsAfter (not_mem_colsAfter
    (not_mem_cols_spendPerCapitaStep
      (not_mem_cols_spendValueStep
        (not_mem_cols_cleanPre hn (by decide)) (by decide))
      (by decide))
    (by decide)) (by decide)) (by decide)

/-- C10.  No input column standardizes to `location`, so the
country-resolution branch never executes: when no input column
standardizes to `country_name`, the cleaners' outputs have no
`country_name` column, and their `country_code` column carries the
raw location strings unmodified. -/
theorem dead_location_branch (today : Val) (df : DataFrame) (h : df.Aligned)
    (hn : "country_name" ∉ (stdCols df).cols) :
    (∀ c ∈ df.cols, standardizeColName c ≠ "location") ∧
    ("country_name" ∉ (clean_enrollment_data today df).cols ∧
      "country_name" ∉ (clean_graduation_data today df).cols ∧
      "country_name" ∉ (clean_spending_data today df).cols) ∧
    (CellPreserved "country_code" (stdCols df) (clean_enrollment_data today df) ∧
      CellPreserved "country_code" (stdCols df) (clean_graduation_data today df) ∧
      CellPreserved "country_code" (stdCols df) (clean_spending_data today df)) :=
  ⟨fun c _ => standardizeColName_ne_location c,
   ⟨no_country_name_enroll hn, no_country_name_grad hn, no_country_name_spend hn⟩,
   ⟨countryCode_passthrough_enroll today df h,
    countryCode_passthrough_grad today df h,
    countryCode_passthrough_spend today df h⟩⟩

/-- C10 witness at a concrete frame with a `LOCATION` column. -/
theorem dead_location_branch_witness :
    let df : DataFrame :=
      { cols := ["LOCATION", "TIME", "value"],
        rows := [[.vstr "USA", .vstr "2012", .vstr "10"]] }
    df.Aligned ∧ "country_name" ∉ (stdCols df).cols ∧
    ((∀ c ∈ df.cols, standardizeColName c ≠ "location") ∧
      ("country_name" ∉ (clean_enrollment_data (.vstr "D") df).cols ∧
        "country_name" ∉ (clean_graduation_data (.vstr "D") df).cols ∧
        "country_name" ∉ (clean_spending_data (.vstr "D") df).cols) ∧
      (CellPreserved "country_code" (stdCols df)
          (clean_enrollment_data (.vstr "D") df) ∧
        CellPreserved "country_code" (stdCols df)
          (clean_graduation_data (.vstr "D") df) ∧
        CellPreserved "country_code" (stdCols df)
          (clean_spending_data (.vstr "D") df))) :=
  ⟨by decide, by decide,
   dead_location_branch (.vstr "D") _ (by decide) (by decide)⟩

/-! ## C9: one metadata row per shared country value -/

theorem valsAsStrings_eq_some {vs : List Val} {ss : List String}
    (h : valsAsStrings vs = some ss) : vs = ss.map Val.vstr := by
  induction vs generalizing ss with
  | nil => simp only [valsAsStrings] at h; cases h; rfl
  | cons v vs ih =>
      cases v with
      | vstr s =>
          simp only [valsAsStrings] at h
          cases hrest : valsAsStrings vs with
          | none => rw [hrest] at h; exact absurd h (by simp)
          | some ss' =>
              rw [hrest] at h
              have h' : s :: ss' = ss := by simpa using h
              subst h'
              simp [ih hrest]
      | vnum q => exact absurd h (by simp [valsAsStrings])
      | na => exact absurd h (by simp [valsAsStrings])

theorem insSorted_perm {α : Type} (le : α → α → Bool) (x : α) (l : List α) :
    (insSorted le x l).Perm (x :: l) := by
  induction l with
  | nil => exact List.Perm.refl _
  | cons y ys ih =>
      unfold insSorted
      split
      · exact List.Perm.refl _
      · exact (List.Perm.cons y ih).trans (List.Perm.swap x y ys)

theorem insSort_perm {α : Type} (le : α → α → Bool) (l : List α) :
    (insSort le l).Perm l := by
  induction l with
  | nil => exact List.Perm.refl _
  | cons x xs ih =>
      exact (insSorted_perm le x (insSort le xs)).trans (List.Perm.cons x ih)

theorem buildCountryRow_code_eq_DEU {today : Val} {c : String} :
    (buildCountryRow today c).country_code = "DEU" ↔ c = "DEU" := by
  unfold buildCountryRow
  dsimp only
  constructor
  · intro h
    split at h
    · next hlen =>
        have hlen' : c.toList.length ≤ 3 := hlen
        rw [List.take_of_length_le hlen'] at h
        cases c
        exact congrArg String.mk (congrArg String.data h)
    · exact absurd h (by simp)
  · rintro rfl
    rfl

/-- C9.  If two frames both contribute the country value `"DEU"`,
metadata synthesis (when it succeeds) produces exactly one row whose
`country_code` is `"DEU"` — the collected values are merged into one
de-duplicated set before rows are built. -/
theorem metadata_single_row_for_DEU (today : Val) (df1 df2 : DataFrame)
    (rows : List CountryRow)
    (h1 : Val.vstr "DEU" ∈ collectCountryVals df1)
    (h2 : Val.vstr "DEU" ∈ collectCountryVals df2)
    (hok : create_country_metadata today [df1, df2] = .ok rows) :
    rows.filter (fun r => decide (r.country_code = "DEU")) =
      [buildCountryRow today "DEU"] ∧
    buildCountryRow today "DEU" =
      { country_code := "DEU", country_name := "DEU", region := "Europe",
        income_group := "High Income", data_available := true,
        last_updated := today } := by
  refine ⟨?_, rfl⟩
  unfold create_country_metadata at hok
  dsimp only at hok
  split at hok
  · exact absurd hok (by simp)
  next strs hvs =>
      simp only [Except.ok.injEq] at hok
      have hvals := valsAsStrings_eq_some hvs
      have hmemv : Val.vstr "DEU" ∈
          ((([df1, df2]).map collectCountryVals).join).dedup := by
        rw [List.mem_dedup]
        exact List.mem_join.mpr ⟨collectCountryVals df1, by simp, h1⟩
      have hmem : "DEU" ∈ strs := by
        rw [hvals] at hmemv
        obtain ⟨s, hs, heq⟩ := List.mem_map.mp hmemv
        cases heq
        exact hs
      have hnd : strs.Nodup :=
        List.Nodup.of_map Val.vstr (hvals ▸ List.nodup_dedup _)
      have hcount : (insSort (fun a b => lexLe a.toList b.toList) strs).count "DEU" = 1 := by
        rw [(insSort_perm _ strs).count_eq]
        exact List.count_eq_one_of_mem hnd hmem
      rw [← hok, List.filter_map, List.filter_filter]
      have hpq : ∀ x ∈ insSort (fun a b => lexLe a.toList b.toList) strs,
          (((fun r => decide (r.country_code = "DEU")) ∘ buildCountryRow today) x &&
            decide (trimChars x.toList ≠ [])) = (x == "DEU") := by
        intro x _
        by_cases hx : x = "DEU"
        · subst hx
          have hcode : ((fun r => decide (r.country_code = "DEU")) ∘
              buildCountryRow today) "DEU" = true := by
            simp [buildCountryRow_code_eq_DEU]
          rw [hcode]
          decide
        · have hcode : ((fun r => decide (r.country_code = "DEU")) ∘
              buildCountryRow today) x = false := by
            simp only [Function.comp_apply, decide_eq_false_iff_not]
            exact fun hc => hx (buildCountryRow_code_eq_DEU.mp hc)
          rw [hcode]
          simp [hx]
      rw [List.filter_congr hpq, List.filter_beq, hcount, List.replicate_one]
      rfl

/-- C9 witness inputs. -/
def c9Df1 : DataFrame :=
  { cols := ["country_code"], rows := [[.vstr "DEU"], [.vstr "FRA"]] }

def c9Df2 : DataFrame :=
  { cols := ["country_code"], rows := [[.vstr "DEU"], [.vstr "USA"]] }

/-- C9 witness: two tiny clean frames sharing `"DEU"`. -/
theorem metadata_single_row_for_DEU_witness :
    (Val.vstr "DEU" ∈ collectCountryVals c9Df1) ∧
    (Val.vstr "DEU" ∈ collectCountryVals c9Df2) ∧
    ∃ rows,
      create_country_metadata (.vstr "2024-01-15") [c9Df1, c9Df2] = .ok rows ∧
      rows.filter (fun r => decide (r.country_code = "DEU")) =
        [buildCountryRow (.vstr "2024-01-15") "DEU"] :=
  ⟨by decide, by decide,
   ⟨[buildCountryRow (.vstr "2024-01-15") "DEU",
     buildCountryRow (.vstr "2024-01-15") "FRA",
     buildCountryRow (.vstr "2024-01-15") "USA"], by decide,
    (metadata_single_row_for_DEU (.vstr "2024-01-15") c9Df1 c9Df2 _
      (by decide) (by decide) (by decide)).1⟩⟩

/-! ## C3: reference-data upsert is keyed on `country_code` and
idempotent -/

theorem filter_replace (r : DbCountryRow) (c : String) :
    ∀ store : List DbCountryRow,
    (store.map DbCountryRow.country_code).Nodup →
    (store.map (fun x => if x.country_code = r.country_code then r else x)).filter
        (fun x => decide (x.country_code = c)) =
      if c = r.country_code then
        (if store.any (fun x => decide (x.country_code = r.country_code))
          then [r] else [])
      else store.filter (fun x => decide (x.country_code = c)) := by
  intro store
  induction store with
  | nil => intro _; simp
  | cons x xs ih =>
      intro wf
      have hx : x.country_code ∉ xs.map DbCountryRow.country_code :=
        (List.nodup_cons.mp wf).1
      have wfxs := (List.nodup_cons.mp wf).2
      by_cases hxc : x.country_code = r.country_code
      · by_cases hcr : c = r.country_code
        · have hfilter : (xs.map (fun y =>
              if y.country_code = r.country_code then r else y)).filter
                (fun y => decide (y.country_code = c)) = [] := by
            rw [List.filter_eq_nil_iff]
            intro z hz
            obtain ⟨y, hy, rfl⟩ := List.mem_map.mp hz
            have hyne : y.country_code ≠ r.country_code := by
              intro he
              exact hx (List.mem_map.mpr ⟨y, hy, by rw [he, ← hxc]⟩)
            rw [if_neg hyne]
            simp only [decide_eq_true_eq]
            rw [hcr]
            exact hyne
          have hany : (x :: xs).any
              (fun y => decide (y.country_code = r.country_code)) = true := by
            simp [List.any_cons, hxc]
          simp only [List.map_cons, if_pos hxc, List.filter_cons, hfilter, hany]
          simp [hcr]
        · simp only [List.map_cons, if_pos hxc, List.filter_cons]
          have hrc : (decide (r.country_code = c)) = false := by
            simp only [decide_eq_false_iff_not]
            exact fun he => hcr (he.symm)
          have hxcc : (decide (x.country_code = c)) = false := by
            simp only [decide_eq_false_iff_not]
            rw [hxc]
            exact fun he => hcr (he.symm)
          rw [hrc, if_neg hcr]
          rw [ih wfxs, if_neg hcr]
          simp [List.filter_cons, hxcc]
      · by_cases hcr : c = r.country_code
        · have hxcc : (decide (x.country_code = c)) = false := by
            simp only [decide_eq_false_iff_not]
            rw [hcr]
            exact hxc
          simp only [List.map_cons, if_neg hxc, List.filter_cons, hxcc]
          rw [ih wfxs, if_pos hcr, if_pos hcr]
          have : (x :: xs).any
              (fun y => decide (y.country_code = r.country_code)) =
              xs.any (fun y => decide (y.country_code = r.country_code)) := by
            simp [List.any_cons, hxc]
          rw [this]
          simp
        · simp only [List.map_cons, if_neg hxc, List.filter_cons]
          rw [ih wfxs, if_neg hcr, if_neg hcr]
  
theorem upsert_wf {store : List DbCountryRow} {r : DbCountryRow}
    {s' : List DbCountryRow}
    (wf : (store.map DbCountryRow.country_code).Nodup)
    (h : upsertCountry store r = .ok s') :
    (s'.map DbCountryRow.country_code).Nodup := by
  unfold upsertCountry at h
  split at h
  · exact absurd h (by simp)
  split at h
  · next hpresent =>
      cases h
      rw [List.map_map]
      have : (DbCountryRow.country_code ∘ fun x =>
          if x.country_code = r.country_code then r else x) =
          fun x => x.country_code := by
        funext x
        by_cases hc : x.country_code = r.country_code
        · simp [hc]
        · simp [hc]
      rw [this]
      exact wf
  · next habsent =>
      cases h
      rw [List.map_append]
      apply List.Nodup.append wf (by simp)
      intro a ha hb
      simp only [List.map_cons, List.map_nil, List.mem_singleton] at hb
      subst hb
      obtain ⟨y, hy, hyc⟩ := List.mem_map.mp ha
      simp only [Bool.not_eq_true, List.any_eq_false] at habsent
      have := habsent y hy
      simp only [decide_eq_false_iff_not] at this
      exact this hyc

theorem upsert_filter {store : List DbCountryRow} {r : DbCountryRow}
    {s' : List DbCountryRow}
    (wf : (store.map DbCountryRow.country_code).Nodup)
    (h : upsertCountry store r = .ok s') (c : String) :
    s'.filter (fun x => decide (x.country_code = c)) =
      if c = r.country_code then [r]
      else store.filter (fun x => decide (x.country_code = c)) := by
  unfold upsertCountry at h
  split at h
  · exact absurd h (by simp)
  split at h
  · next hpresent =>
      cases h
      rw [filter_replace r c store wf, hpresent]
      split <;> rfl
  · next habsent =>
      cases h
      rw [List.filter_append]
      by_cases hcr : c = r.country_code
      · rw [if_pos hcr]
        have h1 : store.filter (fun x => decide (x.country_code = c)) = [] := by
          rw [List.filter_eq_nil_iff]
          intro x hx
          simp only [decide_eq_true_eq]
          simp only [Bool.not_eq_true, List.any_eq_false] at habsent
          have := habsent x hx
          simp only [decide_eq_false_iff_not] at this
          rw [hcr]
          exact this
        rw [h1]
        simp [List.filter_cons, hcr.symm]
      · rw [if_neg hcr]
        have h2 : [r].filter (fun x => decide (x.country_code = c)) = [] := by
          simp [List.filter_cons]
          exact fun he => hcr he.symm
        rw [h2, List.append_nil]

/-- The last record in the batch carrying a given `country_code`. -/
def lastRecWith (rs : List CountryRow) (c : String) : Option CountryRow :=
  (rs.filter (fun x => decide (x.country_code = c))).getLast?

theorem load_wf {today : Val} :
    ∀ (rs : List CountryRow) (store s' : List DbCountryRow),
    (store.map DbCountryRow.country_code).Nodup →
    load_country_metadata today store rs = .ok s' →
    (s'.map DbCountryRow.country_code).Nodup := by
  intro rs
  induction rs with
  | nil =>
      intro store s' wf h
      unfold load_country_metadata at h
      cases h
      exact wf
  | cons r rs ih =>
      intro store s' wf h
      unfold load_country_metadata at h
      split at h
      · exact absurd h (by simp)
      · next s1 hup => exact ih s1 s' (upsert_wf wf hup) h

theorem load_filter {today : Val} :
    ∀ (rs : List CountryRow) (store s' : List DbCountryRow),
    (store.map DbCountryRow.country_code).Nodup →
    load_country_metadata today store rs = .ok s' →
    ∀ c, s'.filter (fun x => decide (x.country_code = c)) =
      match lastRecWith rs c with
      | some q => [toDbCountryRow today q]
      | none => store.filter (fun x => decide (x.country_code = c)) := by
  intro rs
  induction rs with
  | nil =>
      intro store s' wf h c
      unfold load_country_metadata at h
      cases h
      rfl
  | cons r rs ih =>
      intro store s' wf h c
      unfold load_country_metadata at h
      split at h
      · exact absurd h (by simp)
      next s1 hup =>
        have hres := ih s1 s' (upsert_wf wf hup) h c
        have hlast : lastRecWith (r :: rs) c =
            match lastRecWith rs c with
            | some q => some q
            | none => if r.country_code = c then some r else none := by
          unfold lastRecWith
          rw [List.filter_cons]
          cases hq : (rs.filter (fun x => decide (x.country_code = c))).getLast? with
          | some q =>
              split
              · rw [show (r :: rs.filter (fun x => decide (x.country_code = c))) =
                  [r] ++ rs.filter (fun x => decide (x.country_code = c)) from rfl,
                  List.getLast?_append, hq]
                rfl
              · exact hq
          | none =>
              rw [List.getLast?_eq_none_iff] at hq
              split
              · next hrc =>
                  simp only [decide_eq_true_eq] at hrc
                  rw [hq]
                  simp [hrc]
              · next hrc =>
                  simp only [decide_eq_true_eq] at hrc
                  rw [hq]
                  simp [hrc]
        rw [hres, hlast]
        cases hq : lastRecWith rs c with
        | some q => rfl
        | none =>
            rw [upsert_filter wf hup c]
            by_cases hcr : c = (toDbCountryRow today r).country_code
            · have : r.country_code = c := hcr.symm
              rw [if_pos hcr]
              simp [this]
            · have : ¬(r.country_code = c) := fun he => hcr (by
                rw [← he]; rfl)
              rw [if_neg hcr]
              simp [this]

/-- C3.  Starting from any store whose codes are unique (the
`country_code` UNIQUE constraint), if upserting a batch succeeds
twice in a row then for every code appearing in the batch the store
holds exactly one row with that code, namely the (second, identical)
write of the last batch record carrying it; rows with codes outside
the batch are untouched. -/
theorem country_upsert_idempotent (today : Val) (store : List DbCountryRow)
    (rs : List CountryRow) (s1 s2 : List DbCountryRow)
    (wf : (store.map DbCountryRow.country_code).Nodup)
    (h1 : load_country_metadata today store rs = .ok s1)
    (h2 : load_country_metadata today s1 rs = .ok s2) :
    (∀ c ∈ rs.map CountryRow.country_code,
      ∃ rec, lastRecWith rs c = some rec ∧
        s2.filter (fun x => decide (x.country_code = c)) =
          [toDbCountryRow today rec]) ∧
    (∀ c, c ∉ rs.map CountryRow.country_code →
      s2.filter (fun x => decide (x.country_code = c)) =
        store.filter (fun x => decide (x.country_code = c))) := by
  have wf1 := load_wf rs store s1 wf h1
  constructor
  · intro c hc
    obtain ⟨x, hx, hxc⟩ := List.mem_map.mp hc
    have hne : rs.filter (fun y => decide (y.country_code = c)) ≠ [] := by
      intro hnil
      rw [List.filter_eq_nil_iff] at hnil
      exact hnil x hx (by simp [hxc])
    cases hq : lastRecWith rs c with
    | none => exact absurd (List.getLast?_eq_none_iff.mp hq) hne
    | some q =>
        refine ⟨q, rfl, ?_⟩
        rw [load_filter rs s1 s2 wf1 h2 c, hq]
  · intro c hc
    have hnone : lastRecWith rs c = none := by
      unfold lastRecWith
      rw [List.getLast?_eq_none_iff, List.filter_eq_nil_iff]
      intro x hx
      simp only [decide_eq_true_eq]
      exact fun he => hc (List.mem_map.mpr ⟨x, hx, he⟩)
    have e2 := load_filter rs s1 s2 wf1 h2 c
    have e1 := load_filter rs store s1 wf h1 c
    rw [e2, hnone] at *
    rw [e1, hnone]

/-- C3 witness inputs: two records upserted twice into an empty store. -/
def c3Recs : List CountryRow :=
  [{ country_code := "DEU", country_name := "Germany", region := "Europe",
     income_group := "High Income", data_available := true,
     last_updated := .vstr "2024-01-15" },
   { country_code := "FRA", country_name := "France", region := "Europe",
     income_group := "High Income", data_available := true,
     last_updated := .vstr "2024-01-15" }]

def c3Store : List DbCountryRow :=
  c3Recs.map (toDbCountryRow (.vstr "2024-01-15"))

/-- C3 witness: upserting the two records twice from the empty store
succeeds both times, and the theorem yields exactly one row per code. -/
theorem country_upsert_idempotent_witness :
    (([] : List DbCountryRow).map DbCountryRow.country_code).Nodup ∧
    load_country_metadata (.vstr "2024-01-15") [] c3Recs = .ok c3Store ∧
    load_country_metadata (.vstr "2024-01-15") c3Store c3Recs = .ok c3Store ∧
    ((∀ c ∈ c3Recs.map CountryRow.country_code,
      ∃ rec, lastRecWith c3Recs c = some rec ∧
        c3Store.filter (fun x => decide (x.country_code = c)) =
          [toDbCountryRow (.vstr "2024-01-15") rec]) ∧
    (∀ c, c ∉ c3Recs.map CountryRow.country_code →
      c3Store.filter (fun x => decide (x.country_code = c)) =
        ([] : List DbCountryRow).filter (fun x => decide (x.country_code = c)))) :=
  ⟨by decide, by decide, by decide,
   country_upsert_idempotent (.vstr "2024-01-15") [] c3Recs c3Store c3Store
     (by decide) (by decide) (by decide)⟩

/-! ## C7: the spending value step keeps exactly the rows inside the
batch's empirical [1st, 99th]-percentile band -/

theorem rows_withConst (df : DataFrame) (n : String) (v : Val) :
    (withConst df n v).rows = df.rows.map (fun r => rowSet df.cols r n v) := rfl

theorem rows_withCol (df : DataFrame) (dst src : String) (f : Val → Val) :
    (withCol df dst src f).rows =
      df.rows.map (fun r => rowSet df.cols r dst (f (getCell df.cols r src))) := rfl

theorem rows_filterOn (df : DataFrame) (c : String) (p : Val → Bool) :
    (filterOn df c p).rows =
      df.rows.filter (fun r => p (getCell df.cols r c)) := rfl

/-- The row-level image of the spending cleaner's post-band steps
(`spending_usd` assignment, `spending_per_capita` copy, provenance
and currency columns), starting from the pre-step columns. -/
def spendRowOut (today : Val) (cols : List String) (r : List Val) : List Val :=
  let r1 := rowSet cols r "spending_usd" (toNumeric (getCell cols r "value"))
  let c1 := colsAfter cols "spending_usd"
  let r2 := rowSet c1 r1 "spending_per_capita" (getCell c1 r1 "spending_usd")
  let c2 := colsAfter c1 "spending_per_capita"
  let r3 := rowSet c2 r2 "data_source" (.vstr "OECD")
  let c3 := colsAfter c2 "data_source"
  let r4 := rowSet c3 r3 "extraction_date" today
  let c4 := colsAfter c3 "extraction_date"
  rowSet c4 r4 "currency" (.vstr "USD")

/-- C7.  When the pre-cleaned spending batch has a `value` column,
the cleaner's output rows are exactly the pre-step rows whose coerced
value lies inside the closed band between the batch's own empirical
1st and 99th percentiles (computed by `pandasQuantile` over the
batch's coerced values) — in order, carried over by the remaining
column assignments.  Rows outside the band, and rows whose value does
not coerce, are exactly the ones dropped. -/
theorem spending_band_filter (today : Val) (df : DataFrame) (h : df.Aligned)
    (hv : "value" ∈ (cleanPre "FIN" df).cols) :
    (clean_spending_data today df).rows =
      ((cleanPre "FIN" df).rows.filter (fun r =>
        valBetweenO (toNumeric (getCell (cleanPre "FIN" df).cols r "value"))
          (pandasQuantile (spendNums (withCol (cleanPre "FIN" df)
            "spending_usd" "value" toNumeric)) (mkRat 1 100))
          (pandasQuantile (spendNums (withCol (cleanPre "FIN" df)
            "spending_usd" "value" toNumeric)) (mkRat 99 100)))).map
        (spendRowOut today (cleanPre "FIN" df).cols) := by
  set m := cleanPre "FIN" df with hm
  have hmal : m.Aligned := aligned_cleanPre h
  set a := withCol m "spending_usd" "value" toNumeric with ha
  set qlo := pandasQuantile (spendNums a) (mkRat 1 100) with hqlo
  set qhi := pandasQuantile (spendNums a) (mkRat 99 100) with hqhi
  have hstep : spendValueStep m =
      filterOn a "spending_usd" (fun v => valBetweenO v qlo qhi) := by
    unfold spendValueStep
    rw [if_pos hv]
  have hsp : "spending_usd" ∈
      (filterOn a "spending_usd" (fun v => valBetweenO v qlo qhi)).cols := by
    show "spending_usd" ∈ colsAfter m.cols "spending_usd"
    exact mem_colsAfter.mpr (Or.inr rfl)
  have hcap : spendPerCapitaStep
      (filterOn a "spending_usd" (fun v => valBetweenO v qlo qhi)) =
      withCol (filterOn a "spending_usd" (fun v => valBetweenO v qlo qhi))
        "spending_per_capita" "spending_usd" id := by
    unfold spendPerCapitaStep
    rw [if_pos hsp]
  have hout : clean_spending_data today df =
      withConst (withConst (withConst
        (withCol (filterOn a "spending_usd" (fun v => valBetweenO v qlo qhi))
          "spending_per_capita" "spending_usd" id)
        "data_source" (.vstr "OECD")) "extraction_date" today)
        "currency" (.vstr "USD") := by
    unfold clean_spending_data
    rw [← hm, hstep, hcap]
  rw [hout, rows_withConst, rows_withConst, rows_withConst, rows_withCol,
    rows_filterOn, ha, rows_withCol]
  rw [List.filter_map]
  have hcongr : ∀ r ∈ m.rows,
      ((fun r' => valBetweenO (getCell (withCol m "spending_usd" "value"
          toNumeric).cols r' "spending_usd") qlo qhi) ∘
        (fun r' => rowSet m.cols r' "spending_usd"
          (toNumeric (getCell m.cols r' "value")))) r =
      (fun r' => valBetweenO (toNumeric (getCell m.cols r' "value")) qlo qhi) r := by
    intro r hr
    simp only [Function.comp_apply]
    rw [cols_withCol, getCell_rowSet_same (hmal r hr)]
  rw [List.filter_congr hcongr]
  rw [List.map_map, List.map_map, List.map_map, List.map_map]
  refine List.map_congr_left (fun r hr => ?_)
  simp only [Function.comp_apply, spendRowOut, cols_withCol, cols_filterOn,
    cols_withConst, id_eq]

/-- C7 witness input: a 100-value spending batch with one extreme low
and one extreme high outlier. -/
def c7Df : DataFrame :=
  { cols := ["TIME", "value"],
    rows := [[.vstr "2010", .vnum (mkRat (-1000000) 1)]] ++
      (List.range 98).map
        (fun i => [.vstr "2010", .vnum (mkRat (100 + (i : Int)) 1)]) ++
      [[.vstr "2010", .vnum (mkRat 1000000 1)]] }

/-- C7 witness: the batch has 100 values, the theorem applies, and
exactly the 2 outlier rows are dropped (98 survive). -/
theorem spending_band_filter_witness :
    c7Df.Aligned ∧
    "value" ∈ (cleanPre "FIN" c7Df).cols ∧
    c7Df.rows.length = 100 ∧
    (clean_spending_data (.vstr "2024-01-15") c7Df).rows.length = 98 ∧
    (clean_spending_data (.vstr "2024-01-15") c7Df).rows =
      ((cleanPre "FIN" c7Df).rows.filter (fun r =>
        valBetweenO (toNumeric (getCell (cleanPre "FIN" c7Df).cols r "value"))
          (pandasQuantile (spendNums (withCol (cleanPre "FIN" c7Df)
            "spending_usd" "value" toNumeric)) (mkRat 1 100))
          (pandasQuantile (spendNums (withCol (cleanPre "FIN" c7Df)
            "spending_usd" "value" toNumeric)) (mkRat 99 100)))).map
        (spendRowOut (.vstr "2024-01-15") (cleanPre "FIN" c7Df).cols) :=
  ⟨by decide, by decide, by decide, by decide,
   spending_band_filter (.vstr "2024-01-15") c7Df (by decide) (by decide)⟩
